import Mathlib

/-!
Verification of the GAMESS log-file extraction engine (cclib, `gamessparser.py`)
against its natural-language specification.

Lines of the input log are shallowly embedded as `List Char`; the line stream
consumed by the sub-parsers is a `List (List Char)`.  Python string operations
used by the source (`find`, `split`, `strip`, `replace`, slicing, `float`,
`int`, `round`) are modelled below; numeric values are exact rationals.
Fallible steps (`IndexError`, `ValueError`, `StopIteration`, failed `assert`,
`ZeroDivisionError`) are modelled with `Except`.
-/

set_option autoImplicit false

namespace Gamess

/-- A line of the log file, without its trailing newline. -/
abbrev Line := List Char

/-- The remaining stream of input lines. -/
abbrev Lines := List Line

/-- The single-quote character (written via its code point). -/
def sq : Char := Char.ofNat 39

/-- Errors a sub-parser can raise.  `exhausted` models `StopIteration` from
`inputfile.next()` (the fatal stream-exhaustion condition); `valueErr`,
`indexErr`, `keyErr`, `nameErr`, `zeroDiv` model the corresponding Python
exceptions; `assertFail` models a failed `assert`; `fuelOut` is an artifact
of the bounded-fuel encoding of `while` loops and is unreachable whenever
the fuel bound exceeds the number of loop iterations. -/
inductive PErr where
  | exhausted
  | valueErr
  | indexErr
  | keyErr
  | nameErr
  | zeroDiv
  | assertFail
  | fuelOut
  deriving Repr, DecidableEq

/-- `inputfile.next()`: yield the next line or fail with stream exhaustion. -/
def pNext : Lines → Except PErr (Line × Lines)
  | [] => .error .exhausted
  | l :: ls => .ok (l, ls)

/-- Python whitespace test (the characters relevant to log files). -/
def isSpc (c : Char) : Bool :=
  c = ' ' || c = '\t' || c = '\n' || c = '\r' || Char.ofNat 11 = c || Char.ofNat 12 = c

/-- Auxiliary accumulator pass for `pySplit`. -/
def pySplitAux : List Char → List Char → List (List Char)
  | [], acc => if acc = [] then [] else [acc.reverse]
  | c :: cs, acc =>
    if isSpc c then
      if acc = [] then pySplitAux cs [] else acc.reverse :: pySplitAux cs []
    else pySplitAux cs (c :: acc)

/-- Python `str.split()` with no argument: split on runs of whitespace,
discarding empty fields. -/
def pySplit (s : List Char) : List (List Char) := pySplitAux s []

/-- Python `str.split(sep)` for a single-character separator: split at every
occurrence of `sep`, keeping empty fields. -/
def pySplitOn (sep : Char) : List Char → List (List Char)
  | [] => [[]]
  | c :: cs =>
    let r := pySplitOn sep cs
    if c = sep then [] :: r
    else match r with
      | [] => [[c]]
      | t :: ts => (c :: t) :: ts

/-- Python `str.strip()`: drop leading and trailing whitespace. -/
def pyStrip (s : List Char) : List Char :=
  ((s.dropWhile isSpc).reverse.dropWhile isSpc).reverse

/-- Python `str.rstrip()`: drop trailing whitespace. -/
def pyRstrip (s : List Char) : List Char :=
  (s.reverse.dropWhile isSpc).reverse

/-- Python `str.find`: index of the first occurrence of `pat` in `s`,
or `-1` if there is none. -/
def pyFind (s pat : List Char) : Int :=
  match s with
  | [] => if pat = [] then 0 else -1
  | _ :: cs =>
    if pat.isPrefixOf s then 0
    else
      let r := pyFind cs pat
      if r = -1 then -1 else r + 1

/-- Python list/string indexing with a possibly negative index. -/
def pyGet {α : Type} (l : List α) (i : Int) : Option α :=
  if 0 ≤ i then l.get? i.toNat
  else if (-i).toNat ≤ l.length then l.get? (l.length - (-i).toNat) else none

/-- Python slice `l[:i]` (upper-bound slice, negative index allowed). -/
def pyTake {α : Type} (l : List α) (i : Int) : List α :=
  if 0 ≤ i then l.take i.toNat else l.take ((l.length : Int) + i).toNat

/-- Python slice `l[i:]` (lower-bound slice, negative index allowed). -/
def pyDrop {α : Type} (l : List α) (i : Int) : List α :=
  if 0 ≤ i then l.drop i.toNat else l.drop ((l.length : Int) + i).toNat

/-- Python slice `l[a:b]` for constant non-negative bounds. -/
def pySub {α : Type} (l : List α) (a b : Nat) : List α :=
  (l.drop a).take (b - a)

/-- Decimal digit test. -/
def isDig (c : Char) : Bool := '0' ≤ c && c ≤ '9'

/-- Numeric value of a digit string (most significant digit first). -/
def digitsToNat (l : List Char) : Nat :=
  l.foldl (fun a c => a * 10 + (c.toNat - 48)) 0

/-- Python `int(str)`: optional surrounding whitespace, optional sign,
then decimal digits only. -/
def pyInt? (s : List Char) : Option Int :=
  let s := pyStrip s
  let p : Int × List Char :=
    match s with
    | '+' :: r => (1, r)
    | '-' :: r => (-1, r)
    | _ => (1, s)
  if p.2 ≠ [] && p.2.all isDig then some (p.1 * digitsToNat p.2) else none

/-- Python `float(str)` restricted to the finite decimal literals that occur
in the logs: optional surrounding whitespace, optional sign, a mantissa with
an optional fractional part, and an optional `e`/`E` exponent.  The value is
the exact rational denoted by the literal. -/
def pyFloat? (s : List Char) : Option ℚ :=
  let s := pyStrip s
  let p : ℚ × List Char :=
    match s with
    | '+' :: r => (1, r)
    | '-' :: r => (-1, r)
    | _ => (1, s)
  let ip := p.2.takeWhile isDig
  let s1 := p.2.dropWhile isDig
  let fr : List Char × List Char :=
    match s1 with
    | '.' :: r => (r.takeWhile isDig, r.dropWhile isDig)
    | _ => ([], s1)
  if ip = [] && fr.1 = [] then none
  else
    let mant : ℚ := (digitsToNat ip : ℚ) + (digitsToNat fr.1 : ℚ) / ((10 : ℚ) ^ fr.1.length)
    match fr.2 with
    | [] => some (p.1 * mant)
    | e :: r =>
      if e = 'e' || e = 'E' then
        let q : Int × List Char :=
          match r with
          | '+' :: r2 => (1, r2)
          | '-' :: r2 => (-1, r2)
          | _ => (1, r)
        let ed := q.2.takeWhile isDig
        let r2 := q.2.dropWhile isDig
        if ed = [] || r2 ≠ [] then none
        else some (p.1 * mant * (10 : ℚ) ^ (q.1 * (digitsToNat ed : Int)))
      else none

/-- Python `round` on an exact rational: round half to even (banker's
rounding), as used for `int(round(float(x)))` on atomic numbers. -/
def pyRound (q : ℚ) : Int :=
  let f : Int := ⌊q⌋
  let r : ℚ := q - (f : ℚ)
  if r < 1/2 then f
  else if 1/2 < r then f + 1
  else if f % 2 = 0 then f else f + 1

/-- Lift an `Option` into the parser's error monad with a given error. -/
def orErr {α : Type} (o : Option α) (e : PErr) : Except PErr α :=
  match o with
  | some a => .ok a
  | none => .error e

/-- Modelled from the spec: the external unit-conversion collaborator
`convert(value, fromUnit, toUnit)` (not part of the sources under
verification), a fixed table of multiplicative conversions for the unit
pairs the engine requests.  Only the pairs used by the claims matter and
every claim is invariant under the exact factors chosen here. -/
def convertor (x : ℚ) (fromU toU : String) : ℚ :=
  if fromU = "hartree" && toU = "eV" then x * 27.2113845
  else if fromU = "hartree" && toU = "cm-1" then x * 219474.6
  else if fromU = "bohr" && toU = "Angstrom" then x * 0.529177249
  else if fromU = "Debye^2/amu-Angstrom^2" && toU = "km/mol" then x * 42.255
  else x

end Gamess

namespace Gamess

/-- Decidable equality for `Except` results (both components decidable). -/
instance {ε α : Type} [DecidableEq ε] [DecidableEq α] : DecidableEq (Except ε α) :=
  fun a b =>
    match a, b with
    | .ok x, .ok y => decidable_of_iff (x = y) (by constructor <;> intro h <;> simp_all)
    | .error x, .error y => decidable_of_iff (x = y) (by constructor <;> intro h <;> simp_all)
    | .ok _, .error _ => isFalse (by simp)
    | .error _, .ok _ => isFalse (by simp)

/-- Python `str.replace(pat, rep)` restricted to single-character pattern and
replacement, which is the only way the source uses it: replace every
occurrence of `pat` by `rep`. -/
def pyReplace1 (pat rep : Char) : List Char → List Char
  | [] => []
  | c :: cs => (if c = pat then rep else c) :: pyReplace1 pat rep cs

/-- `GAMESS.normalisesym` (gamessparser.py, lines 37-55).  `label[1:]` is
compared against two single quotes; otherwise `U`/`G` in the tail are
lower-cased via two chained `replace` calls; the result is
`label[0] + end`.  Indexing `label[0]` raises `IndexError` on an empty
label, modelled by `none`. -/
def normalisesym (label : List Char) : Option (List Char) :=
  let e : List Char :=
    if label.drop 1 = [sq, sq] then ['"']
    else pyReplace1 'G' 'g' (pyReplace1 'U' 'u' (label.drop 1))
  match label with
  | [] => none
  | c :: _ => some (c :: e)

/-- Per-character lower-casing of `U` and `G`, as the specification words the
normalisation rule. -/
def lowerUG (c : Char) : Char :=
  if c = 'U' then 'u' else if c = 'G' then 'g' else c

/-- The symmetry-label normaliser as the specification describes it: on a
non-empty label, if everything after the first character is two single
quotes, the first character followed by one double quote; otherwise the
label with every `U` and `G` after the first character lower-cased. -/
def normalisesymSpec (label : List Char) : Option (List Char) :=
  match label with
  | [] => none
  | c :: rest =>
    some (if rest = [sq, sq] then [c, '"'] else c :: rest.map lowerUG)

/-- Chained single-character replaces equal the per-character map. -/
theorem pyReplace1_UG (xs : List Char) :
    pyReplace1 'G' 'g' (pyReplace1 'U' 'u' xs) = xs.map lowerUG := by
  induction xs with
  | nil => rfl
  | cons c cs ih =>
    simp only [pyReplace1, List.map, lowerUG, ih]
    by_cases hU : c = 'U'
    · subst hU; simp [pyReplace1]
    · by_cases hG : c = 'G' <;> simp [hU, hG, pyReplace1]

/-- The molecular-orbital eigenvector trigger (gamessparser.py, line 498):
`line.find("EIGENVECTORS") == 10 or line.find("MOLECULAR OBRITALS") == 10`
(sic: the second literal is misspelled in the source). -/
def moEigenvectorsTrigger (line : Line) : Bool :=
  pyFind line "EIGENVECTORS".data == 10 || pyFind line "MOLECULAR OBRITALS".data == 10

/-- OPTTOL scan (gamessparser.py, lines 70-78): walk the split line; every
token containing "OPTTOL" parses a tolerance (the token two fields later if
the token is exactly "OPTTOL", else the part after "="), overwriting
`geotargets` with `[opttol, 3. / opttol]`; the last match wins. -/
def opttolLoop (temp : List (List Char)) :
    List (List Char) → Nat → Option (ℚ × ℚ) → Except PErr (Option (ℚ × ℚ))
  | [], _, acc => .ok acc
  | x :: rest, i, acc =>
    if 0 ≤ pyFind x "OPTTOL".data then do
      let opttol ←
        (if x = "OPTTOL".data then do
          let t ← orErr (temp.get? (i + 2)) .indexErr
          orErr (pyFloat? t) .valueErr
        else do
          let t ← orErr ((pySplitOn '=' x).get? 1) .indexErr
          orErr (pyFloat? t) .valueErr)
      opttolLoop temp rest (i + 1) (some (opttol, 3 / opttol))
    else opttolLoop temp rest (i + 1) acc

/-- The OPTTOL branch of `extract` (gamessparser.py, lines 66-78), under the
claim's premise that `geotargets` is not yet set: returns the `geotargets`
pair recorded from the line, `none` when the line sets nothing. -/
def parseOpttolLine (line : Line) : Except PErr (Option (ℚ × ℚ)) :=
  if 0 ≤ pyFind line "OPTTOL".data then
    opttolLoop (pySplit line) (pySplit line) 0 none
  else .ok none

/-- Coupled-cluster cascade (gamessparser.py, lines 132-142), entered when
`line[8:23] == "CCSD    ENERGY:"`: read the value, then look at the next
line for `CCSD[T]` and, after it, `CCSD(T)`, each overwriting the running
value; append one converted value to `ccenergies`.  Returns the values
appended and the rest of the stream. -/
def ccsdCascade (line : Line) (rest : Lines) : Except PErr (List ℚ × Lines) :=
  if pySub line 8 23 = "CCSD    ENERGY:".data then do
    let t ← orErr ((pySplit line).get? 2) .indexErr
    let v ← orErr (pyFloat? t) .valueErr
    let (l2, rest2) ← pNext rest
    if pySub l2 8 23 = "CCSD[T] ENERGY:".data then do
      let t2 ← orErr ((pySplit l2).get? 2) .indexErr
      let v2 ← orErr (pyFloat? t2) .valueErr
      let (l3, rest3) ← pNext rest2
      if pySub l3 8 23 = "CCSD(T) ENERGY:".data then do
        let t3 ← orErr ((pySplit l3).get? 2) .indexErr
        let v3 ← orErr (pyFloat? t3) .valueErr
        .ok ([convertor v3 "hartree" "eV"], rest3)
      else .ok ([convertor v2 "hartree" "eV"], rest3)
    else .ok ([convertor v "hartree" "eV"], rest2)
  else .ok ([], line :: rest)

theorem orErr_some {α : Type} (a : α) (e : PErr) : orErr (some a) e = .ok a := rfl

theorem orErr_none {α : Type} (e : PErr) : orErr (none : Option α) e = .error e := rfl

theorem okBind {ε α β : Type} (a : α) (f : α → Except ε β) :
    (Except.ok a : Except ε α) >>= f = f a := rfl

theorem errBind {ε α β : Type} (e : ε) (f : α → Except ε β) :
    (Except.error e : Except ε α) >>= f = Except.error e := rfl

end Gamess

namespace Gamess

set_option allowUnsafeReducibility true

attribute [semireducible] Rat.add Rat.mul Rat.sub Rat.inv Rat.ofScientific Rat.normalize mkRat

/-- C4.  For every non-empty symmetry label the normaliser follows the
specification rule (two single quotes after the first character become one
double quote, otherwise `U`/`G` after the first character are lower-cased
and everything else is unchanged), and the five documented examples hold. -/
theorem normalisesym_follows_spec :
    (∀ label : List Char, label ≠ [] → normalisesym label = normalisesymSpec label) ∧
    normalisesym "A".data = some "A".data ∧
    normalisesym "A1G".data = some "A1g".data ∧
    normalisesym ['A', sq] = some ['A', sq] ∧
    normalisesym ['A', sq, sq] = some ['A', '"'] ∧
    normalisesym "AG".data = some "Ag".data := by
  refine ⟨?_, by decide, by decide, by decide, by decide, by decide⟩
  intro label h
  match label with
  | c :: rest =>
    simp only [normalisesym, normalisesymSpec, List.drop_succ_cons, List.drop_zero,
      pyReplace1_UG]
    split <;> simp

/-- Witness for C4 at the concrete label `B1U`. -/
theorem normalisesym_follows_spec_witness :
    ("B1U".data ≠ ([] : List Char)) ∧ normalisesym "B1U".data = normalisesymSpec "B1U".data :=
  ⟨by decide, normalisesym_follows_spec.1 "B1U".data (by decide)⟩

/-- C10.  The normaliser is partial at its interface: it fails on the empty
label (indexing the first character) and succeeds on every non-empty one. -/
theorem normalisesym_empty_label_fails :
    normalisesym [] = none ∧
    ∀ label : List Char, label ≠ [] → (normalisesym label).isSome := by
  refine ⟨rfl, ?_⟩
  intro label h
  match label with
  | c :: rest => simp [normalisesym]

/-- Witness for C10 at the concrete label `B`. -/
theorem normalisesym_empty_label_fails_witness :
    (['B'] : List Char) ≠ [] ∧ (normalisesym ['B']).isSome :=
  ⟨by decide, normalisesym_empty_label_fails.2 ['B'] (by decide)⟩

/-- C2.  The eigenvector trigger fires for "EIGENVECTORS" at offset 10, but
a line carrying "MOLECULAR ORBITALS" at offset 10 does not fire it: the
source tests the misspelled literal "MOLECULAR OBRITALS", which the line
does not contain. -/
theorem mo_trigger_misses_molecular_orbitals :
    moEigenvectorsTrigger (List.replicate 10 ' ' ++ "EIGENVECTORS".data) = true ∧
    pyFind (List.replicate 10 ' ' ++ "MOLECULAR ORBITALS".data) "MOLECULAR ORBITALS".data = 10 ∧
    moEigenvectorsTrigger (List.replicate 10 ' ' ++ "MOLECULAR ORBITALS".data) = false :=
  ⟨by decide, by decide, by decide⟩

/-- C1.  On both OPTTOL line formats documented in the source, the recorded
`geotargets` pair is `(opttol, 3 / opttol)` — for `opttol = 10^-4` the
second entry is `30000`, which is not `3 × opttol = 0.0003`: the code
divides where the stated convention multiplies. -/
theorem geotargets_opttol_reciprocal :
    parseOpttolLine "           OPTTOL = 1.000E-04          RMIN   = 1.500E-03".data
      = .ok (some (1/10000, 30000)) ∧
    parseOpttolLine " INPUT CARD> $STATPT OPTTOL=0.0001 NSTEP=100 $END".data
      = .ok (some (1/10000, 30000)) ∧
    (30000 : ℚ) ≠ 3 * (1/10000) :=
  ⟨by decide, by decide, by decide⟩

/-- C3.  With CCSD, CCSD[T] and CCSD(T) lines in immediate sequence, exactly
one value is appended to `ccenergies`, and it is the converted CCSD(T)
value; whenever the CCSD or CCSD[T] value differs from the CCSD(T) value,
the appended entry differs from what converting those values would give. -/
theorem ccenergies_cascade_takes_last (l1 l2 l3 : Line) (rest : Lines)
    (t1 t2 t3 : List Char) (v1 v2 v3 : ℚ)
    (h1 : pySub l1 8 23 = "CCSD    ENERGY:".data)
    (h2 : pySub l2 8 23 = "CCSD[T] ENERGY:".data)
    (h3 : pySub l3 8 23 = "CCSD(T) ENERGY:".data)
    (g1 : (pySplit l1).get? 2 = some t1) (f1 : pyFloat? t1 = some v1)
    (g2 : (pySplit l2).get? 2 = some t2) (f2 : pyFloat? t2 = some v2)
    (g3 : (pySplit l3).get? 2 = some t3) (f3 : pyFloat? t3 = some v3) :
    ccsdCascade l1 (l2 :: l3 :: rest) = .ok ([convertor v3 "hartree" "eV"], rest) ∧
    (v1 ≠ v3 → [convertor v3 "hartree" "eV"] ≠ [convertor v1 "hartree" "eV"]) ∧
    (v2 ≠ v3 → [convertor v3 "hartree" "eV"] ≠ [convertor v2 "hartree" "eV"]) := by
  have hconv : ∀ x y : ℚ, x ≠ y →
      convertor x "hartree" "eV" ≠ convertor y "hartree" "eV" := by
    intro x y hxy hC
    simp only [convertor, if_pos] at hC
    norm_num at hC
    exact hxy hC
  refine ⟨?_, ?_, ?_⟩
  · simp only [ccsdCascade, pNext, h1, h2, h3, g1, g2, g3, f1, f2, f3,
      orErr_some, okBind, if_true, reduceIte]
  · intro hne
    simp only [ne_eq, List.cons.injEq, and_true]
    exact hconv v3 v1 (fun h => hne h.symm)
  · intro hne
    simp only [ne_eq, List.cons.injEq, and_true]
    exact hconv v3 v2 (fun h => hne h.symm)

/-- Witness for C3 on three concrete cascade lines. -/
theorem ccenergies_cascade_takes_last_witness :
    ccsdCascade "        CCSD    ENERGY:     -382.25 CORR.E=  -1.0".data
        ["        CCSD[T] ENERGY:     -382.50 CORR.E=  -1.2".data,
         "        CCSD(T) ENERGY:     -382.75 CORR.E=  -1.4".data]
      = .ok ([convertor (-1531/4) "hartree" "eV"], []) :=
  (ccenergies_cascade_takes_last _ _ _ []
    "-382.25".data "-382.50".data "-382.75".data (-1529/4) (-765/2) (-1531/4)
    (by decide) (by decide) (by decide)
    (by decide) (by decide) (by decide) (by decide) (by decide) (by decide)).1

end Gamess

namespace Gamess

/-- Elements of the field adjunction of the square root of 2 to the
rationals: `a + b·√2` is represented as the pair `(a, b)`.  The source
computes excited-state coefficients with a division by `sqrt(2.0)`; this
representation makes that arithmetic exact and executable. -/
structure Qrt2 where
  a : ℚ
  b : ℚ
  deriving DecidableEq, Repr

/-- Embed a rational into the adjunction. -/
def Qrt2.ofRat (q : ℚ) : Qrt2 := ⟨q, 0⟩

/-- Division by √2: `(a + b√2)/√2 = b + (a/2)√2`. -/
def Qrt2.divSqrt2 (x : Qrt2) : Qrt2 := ⟨x.b, x.a / 2⟩

/-- Multiplication by √2: `(a + b√2)·√2 = 2b + a√2`. -/
def Qrt2.mulSqrt2 (x : Qrt2) : Qrt2 := ⟨2 * x.b, x.a⟩

/-- One one-electron excitation contribution row of an "EXCITED STATE"
block (gamessparser.py, lines 197-210): the spin channel is 1 only for
`cihamtyp == "dets"` with leading token "BETA"; the 1-based from/to
orbitals are decremented; with the SAPS hamiltonian the coefficient is
divided by √2. -/
def cisContribRow (cihamtyp : String) (line : Line) :
    Except PErr ((Int × Nat) × (Int × Nat) × Qrt2) := do
  let motype ←
    (if cihamtyp = "dets" then do
      let t0 ← orErr (pyGet (pySplit line) 0) .indexErr
      pure (if t0 = "BETA".data then (1 : Nat) else 0)
    else pure 0)
  let tf ← orErr (pyGet (pySplit line) (-3)) .indexErr
  let fromMO ← orErr (pyInt? tf) .valueErr
  let tt ← orErr (pyGet (pySplit line) (-2)) .indexErr
  let toMO ← orErr (pyInt? tt) .valueErr
  let tc ← orErr (pyGet (pySplit line) (-1)) .indexErr
  let c ← orErr (pyFloat? tc) .valueErr
  let coeff := if cihamtyp = "saps" then Qrt2.divSqrt2 (Qrt2.ofRat c) else Qrt2.ofRat c
  .ok ((fromMO - 1, motype), (toMO - 1, motype), coeff)

theorem purePure {ε α : Type} (a : α) : (pure a : Except ε α) = Except.ok a := rfl

/-- C7.  For a successfully parsed excitation-contribution row: with the
SAPS hamiltonian the stored coefficient is the raw value divided by √2
(equivalently, multiplying it back by √2 recovers the raw value); with
DETS or no hamiltonian it is the raw value unscaled; the spin channel is 1
exactly when the hamiltonian is DETS and the leading token is BETA; the
orbital indices are the parsed values decremented. -/
theorem etsecs_row_scaling (ham : String) (line : Line) (t0 tf tt tc : List Char)
    (fi ti : Int) (c : ℚ) (r : (Int × Nat) × (Int × Nat) × Qrt2)
    (h0 : pyGet (pySplit line) 0 = some t0)
    (hf : pyGet (pySplit line) (-3) = some tf) (hfi : pyInt? tf = some fi)
    (ht : pyGet (pySplit line) (-2) = some tt) (hti : pyInt? tt = some ti)
    (hc : pyGet (pySplit line) (-1) = some tc) (hcv : pyFloat? tc = some c)
    (hr : cisContribRow ham line = .ok r) :
    (ham = "saps" → r.2.2 = Qrt2.divSqrt2 (Qrt2.ofRat c) ∧
      Qrt2.mulSqrt2 r.2.2 = Qrt2.ofRat c) ∧
    (ham = "dets" ∨ ham = "none" → r.2.2 = Qrt2.ofRat c) ∧
    r.1.2 = (if ham = "dets" ∧ t0 = "BETA".data then 1 else 0) ∧
    r.2.1.2 = r.1.2 ∧ r.1.1 = fi - 1 ∧ r.2.1.1 = ti - 1 := by
  simp only [cisContribRow, h0, hf, hfi, ht, hti, hc, hcv, orErr_some, okBind,
    purePure] at hr
  by_cases hd : ham = "dets"
  · subst hd
    simp only [if_pos rfl, okBind, reduceIte] at hr
    have hsaps : ("dets" : String) ≠ "saps" := by decide
    simp only [if_neg hsaps] at hr
    simp only [Except.ok.injEq] at hr
    subst hr
    refine ⟨fun h => absurd h (by decide), fun _ => rfl, ?_, rfl, rfl, rfl⟩
    simp
  · simp only [if_neg hd, purePure, okBind] at hr
    simp only [Except.ok.injEq] at hr
    subst hr
    refine ⟨?_, ?_, ?_, rfl, rfl, rfl⟩
    · intro hs
      subst hs
      refine ⟨by simp, ?_⟩
      simp only [reduceIte, Qrt2.mulSqrt2, Qrt2.divSqrt2, Qrt2.ofRat, Qrt2.mk.injEq]
      exact ⟨by ring, trivial⟩
    · intro hcase
      rcases hcase with h | h
      · exact absurd h hd
      · subst h; rfl
    · simp [hd]

/-- Witness for C7 on a concrete SAPS row. -/
theorem etsecs_row_scaling_witness :
    cisContribRow "saps" "              1          5      0.445763".data
      = .ok ((0, 0), (4, 0), ⟨0, 445763/2000000⟩) ∧
    Qrt2.mulSqrt2 ⟨0, 445763/2000000⟩ = Qrt2.ofRat (445763/1000000) :=
  ⟨by decide,
    ((etsecs_row_scaling "saps" "              1          5      0.445763".data
      "1".data "1".data "5".data "0.445763".data 1 5 (445763/1000000)
      ((0, 0), (4, 0), ⟨0, 445763/2000000⟩)
      (by decide) (by decide) (by decide) (by decide) (by decide) (by decide)
      (by decide) (by decide)).1 rfl).2⟩

end Gamess

namespace Gamess

/-- The SCF-related fields of the result record. -/
structure ScfState where
  scftargets : List (List ℚ)
  scfvalues : List (List (List ℚ))
  deriving Repr, DecidableEq

/-- Threshold extraction from a density-convergence line (gamessparser.py,
lines 288-294): locate "DENSITY CONV=" (else "DENSITY MATRIX CONV="), slice
past it and take the first token as a float. -/
def scfDensityTarget (l : Line) : Except PErr ℚ :=
  let idx0 := pyFind l "DENSITY CONV=".data
  let index : Int :=
    if idx0 < 0 then pyFind l "DENSITY MATRIX CONV=".data + 20 else idx0 + 13
  do
    let t ← orErr ((pySplit (pyDrop l index)).get? 0) .indexErr
    orErr (pyFloat? t) .valueErr

/-- Header scan of the SCF section (gamessparser.py, lines 278-295):
consume lines until one containing "ITER EX"; a line containing a
density-convergence phrase rebinds the running `scftarget` (initially
unbound, hence the `Option`). -/
def scfHeaderLoop : Lines → Option ℚ → Except PErr (Option ℚ × Lines)
  | [], _ => .error .exhausted
  | l :: ls, tgt =>
    if 0 ≤ pyFind l "ITER EX".data then .ok (tgt, ls)
    else if 0 ≤ pyFind l "DENSITY CONV=".data || 0 ≤ pyFind l "DENSITY MATRIX CONV=".data then do
      let v ← scfDensityTarget l
      scfHeaderLoop ls (some v)
    else scfHeaderLoop ls tgt

/-- Iteration-table scan (gamessparser.py, lines 303-317): rows until a
blank line; a row whose first four characters do not parse as an integer is
skipped (banner tolerance); otherwise the sixth whitespace-separated token
is appended as a single-element row.  Exhausting the stream before the
blank terminator is fatal. -/
def scfTableLoop : Lines → List (List ℚ) → Except PErr (List (List ℚ) × Lines)
  | [], _ => .error .exhausted
  | l :: ls, acc =>
    if pyStrip l = [] then .ok (acc, ls)
    else
      match pyInt? (pySub l 0 4) with
      | none => scfTableLoop ls acc
      | some _ => do
        let t ← orErr ((pySplit l).get? 5) .indexErr
        let v ← orErr (pyFloat? t) .valueErr
        scfTableLoop ls (acc ++ [[v]])

/-- The SCF sub-parser (gamessparser.py, lines 276-318), entered after the
trigger line ending in "SCF CALCULATION".  In-place mutations that precede
a fatal error persist, so the error case carries the state at failure:
`scftargets` is appended to before the table is read, `scfvalues` only
after the blank terminator. -/
def scfSection (st : ScfState) (rest : Lines) :
    Except (PErr × ScfState) (ScfState × Lines) :=
  match scfHeaderLoop rest none with
  | .error e => .error (e, st)
  | .ok (tgt, rest1) =>
    match tgt with
    | none => .error (.nameErr, st)
    | some target =>
      let st1 : ScfState := { st with scftargets := st.scftargets ++ [[target]] }
      match scfTableLoop rest1 [] with
      | .error e => .error (e, st1)
      | .ok (values, rest2) =>
        .ok ({ st1 with scfvalues := st1.scfvalues ++ [values] }, rest2)

/-- Concrete density-convergence header line used by the C9 theorem. -/
def scfDensityLineEx : Line := "     DENSITY CONV=  1.00E-05".data

/-- Concrete iteration-table header line used by the C9 theorem. -/
def scfIterExLineEx : Line :=
  "  ITER EX DEM     TOTAL ENERGY        E CHANGE  DENSITY CHANGE     DIIS ERROR".data

/-- A table row is processable: either its first four characters fail the
integer parse (banner row, skipped) or the sixth token parses as a float. -/
def scfRowOk (r : Line) : Bool :=
  match pyInt? (pySub r 0 4) with
  | none => true
  | some _ =>
    match (pySplit r).get? 5 with
    | none => false
    | some t => (pyFloat? t).isSome

/-- A truncated table never reaches the blank terminator: the scan ends in
stream exhaustion whatever was accumulated. -/
theorem scfTableLoop_truncated (rows : Lines)
    (hnb : ∀ r ∈ rows, pyStrip r ≠ [])
    (hok : ∀ r ∈ rows, scfRowOk r = true) :
    ∀ acc, scfTableLoop rows acc = .error .exhausted := by
  induction rows with
  | nil => intro acc; rfl
  | cons r rs ih =>
    intro acc
    have hr := hnb r (by simp)
    have hrs : ∀ x ∈ rs, pyStrip x ≠ [] := fun x hx => hnb x (by simp [hx])
    have hoks : ∀ x ∈ rs, scfRowOk x = true := fun x hx => hok x (by simp [hx])
    have h := hok r (by simp)
    unfold scfRowOk at h
    rw [scfTableLoop, if_neg hr]
    revert h
    cases hint : pyInt? (pySub r 0 4) with
    | none => intro h; exact ih hrs hoks _
    | some k =>
      cases hget : (pySplit r).get? 5 with
      | none => intro h; simp at h
      | some t =>
        intro h
        simp only [Option.isSome_iff_exists] at h
        obtain ⟨v, hfl⟩ := h
        simp only [orErr_some, okBind, hfl]
        exact ih hrs hoks _

/-- C9.  If the stream ends while the SCF iteration table is being read
(every remaining row is non-blank, so the blank terminator never comes),
the section fails with the fatal stream-exhaustion condition and
`scfvalues` is exactly as it was before the block — no partial entry is
appended (only `scftargets` has already received the threshold). -/
theorem scf_truncated_no_partial_values (rows : Lines) (st : ScfState)
    (hnb : ∀ r ∈ rows, pyStrip r ≠ [])
    (hok : ∀ r ∈ rows, scfRowOk r = true) :
    scfSection st (scfDensityLineEx :: scfIterExLineEx :: rows)
      = .error (.exhausted,
          { st with scftargets := st.scftargets ++ [[1/100000]] }) ∧
    ({ st with scftargets := st.scftargets ++ [[1/100000]] } : ScfState).scfvalues
      = st.scfvalues := by
  have hd : scfDensityTarget scfDensityLineEx = .ok (1/100000) := by decide
  have hH : scfHeaderLoop (scfDensityLineEx :: scfIterExLineEx :: rows) none
      = .ok (some (1/100000), rows) := by
    rw [scfHeaderLoop, if_neg (by decide), if_pos (by decide), hd, okBind,
      scfHeaderLoop, if_pos (by decide)]
  refine ⟨?_, rfl⟩
  simp only [scfSection, hH, scfTableLoop_truncated rows hnb hok []]

/-- Witness for C9: a two-row truncated table (one data row, one banner). -/
theorem scf_truncated_no_partial_values_witness :
    scfSection ⟨[], []⟩
      (scfDensityLineEx :: scfIterExLineEx ::
        ["   1  0  0     -382.0454325331   -382.0454325331   0.119946908   0.000000000".data,
         "          * * *   INITIATING DIIS PROCEDURE   * * *".data])
      = .error (.exhausted, ⟨[[1/100000]], []⟩) :=
  (scf_truncated_no_partial_values _ ⟨[], []⟩ (by decide) (by decide)).1

end Gamess

namespace Gamess

theorem bindOk {ε α β : Type} {x : Except ε α} {f : α → Except ε β} {b : β}
    (h : x >>= f = .ok b) : ∃ a, x = .ok a ∧ f a = .ok b := by
  cases x with
  | ok a => exact ⟨a, rfl, h⟩
  | error e => rw [errBind] at h; cases h

/-- The geometry-related fields of the result record together with the two
parse-local flags set in `before_parsing` (gamessparser.py, lines 57-61):
`firststdorient = True`, `geooptfinished = False`. -/
structure GeoState where
  atomcoords : List (List (List ℚ))
  atomnos : List Int
  firststdorient : Bool
  geooptfinished : Bool
  deriving Repr, DecidableEq

/-- Python `map(float, tokens)`: all tokens must parse. -/
def mapFloats : List (List Char) → Option (List ℚ)
  | [] => some []
  | t :: ts =>
    match pyFloat? t with
    | none => none
    | some v =>
      match mapFloats ts with
      | none => none
      | some vs => some (v :: vs)

/-- Rows of an input-orientation block (gamessparser.py, lines 242-246):
until a blank line; tokens 2-4 converted bohr→Å, the atomic number is the
rounded float of token 1. -/
def geoRowsInput : Lines → List (List ℚ) → List Int →
    Except PErr ((List (List ℚ) × List Int) × Lines)
  | [], _, _ => .error .exhausted
  | l :: ls, coords, nos =>
    if pyStrip l ≠ [] then do
      let temp := pySplit (pyStrip l)
      let cs ← orErr (mapFloats (pySub temp 2 5)) .valueErr
      let row := cs.map (fun x => convertor x "bohr" "Angstrom")
      let t1 ← orErr (temp.get? 1) .indexErr
      let z ← orErr (pyFloat? t1) .valueErr
      geoRowsInput ls (coords ++ [row]) (nos ++ [pyRound z])
    else .ok ((coords, nos), ls)

/-- Rows of a standard-orientation block (gamessparser.py, lines 269-274):
until a blank line; tokens 2-4 as plain floats. -/
def geoRowsStd : Lines → List (List ℚ) →
    Except PErr (List (List ℚ) × Lines)
  | [], _ => .error .exhausted
  | l :: ls, coords =>
    if pyStrip l ≠ [] then do
      let temp := pySplit (pyStrip l)
      let cs ← orErr (mapFloats (pySub temp 2 5)) .valueErr
      geoRowsStd ls (coords ++ [cs])
    else .ok (coords, ls)

/-- The geometry-related conditionals of `extract` for one dispatched line
(gamessparser.py, lines 231-274): the input-orientation block
(`line[11:50]`), the "EQUILIBRIUM GEOMETRY LOCATED" one-shot
(`line[12:40]`), and the standard-orientation block (`line[1:29]`, guarded
by `geooptfinished`; on its first occurrence `atomcoords` is wiped before
appending).  The three trigger strings are mutually exclusive on any line,
so the source's independent `if` statements behave as this chain.  Lines
matching none of the three triggers leave the geometry state unchanged. -/
def geoExtract (st : GeoState) (line : Line) (rest : Lines) :
    Except PErr (GeoState × Lines) :=
  if pySub line 11 50 = "ATOMIC                      COORDINATES".data then do
    let (_, rest1) ← pNext rest
    let ((coords, nos), rest2) ← geoRowsInput rest1 [] []
    .ok ({ st with atomcoords := st.atomcoords ++ [coords], atomnos := nos }, rest2)
  else if pySub line 12 40 = "EQUILIBRIUM GEOMETRY LOCATED".data then
    .ok ({ st with geooptfinished := true }, rest)
  else if pySub line 1 29 = "COORDINATES OF ALL ATOMS ARE".data ∧ ¬st.geooptfinished then
    let st1 : GeoState :=
      if st.firststdorient then { st with atomcoords := [], firststdorient := false }
      else st
    do
      let (_, rest1) ← pNext rest
      let (_, rest2) ← pNext rest1
      let (coords, rest3) ← geoRowsStd rest2 []
      .ok ({ st1 with atomcoords := st1.atomcoords ++ [coords] }, rest3)
  else .ok (st, rest)

/-- Driver for the geometry subsystem: dispatch every remaining line through
`geoExtract` (fuel bounds the number of dispatched lines; end of input ends
the parse normally). -/
def geoRun : Nat → GeoState → Lines → Except PErr GeoState
  | _, st, [] => .ok st
  | 0, _, _ :: _ => .error .fuelOut
  | fuel + 1, st, l :: ls =>
    match geoExtract st l ls with
    | .error e => .error e
    | .ok (st2, rest2) => geoRun fuel st2 rest2

/-- Once the first-standard-orientation flag is spent, a dispatched line can
only extend `atomcoords` and the flag stays spent. -/
theorem geoExtract_extends (st : GeoState) (l : Line) (rest : Lines)
    (st2 : GeoState) (rest2 : Lines)
    (hflag : st.firststdorient = false)
    (h : geoExtract st l rest = .ok (st2, rest2)) :
    (∃ t, st2.atomcoords = st.atomcoords ++ t) ∧ st2.firststdorient = false := by
  unfold geoExtract at h
  split at h
  · obtain ⟨p1, hp1, h⟩ := bindOk h
    obtain ⟨l1, r1⟩ := p1
    obtain ⟨p2, hp2, h⟩ := bindOk h
    obtain ⟨⟨coords, nos⟩, r2⟩ := p2
    simp only [Except.ok.injEq, Prod.mk.injEq] at h
    obtain ⟨hst, -⟩ := h
    subst hst
    exact ⟨⟨[coords], rfl⟩, hflag⟩
  · split at h
    · simp only [Except.ok.injEq, Prod.mk.injEq] at h
      obtain ⟨hst, -⟩ := h
      subst hst
      exact ⟨⟨[], by simp⟩, hflag⟩
    · split at h
      · rw [if_neg (by simp [hflag])] at h
        obtain ⟨p1, hp1, h⟩ := bindOk h
        obtain ⟨l1, r1⟩ := p1
        obtain ⟨p2, hp2, h⟩ := bindOk h
        obtain ⟨l2, r2⟩ := p2
        obtain ⟨p3, hp3, h⟩ := bindOk h
        obtain ⟨coords, r3⟩ := p3
        simp only [Except.ok.injEq, Prod.mk.injEq] at h
        obtain ⟨hst, -⟩ := h
        subst hst
        exact ⟨⟨[coords], rfl⟩, hflag⟩
      · simp only [Except.ok.injEq, Prod.mk.injEq] at h
        obtain ⟨hst, -⟩ := h
        subst hst
        exact ⟨⟨[], by simp⟩, hflag⟩

/-- Once the flag is spent, any successful run of the driver only extends
`atomcoords`, and the flag stays spent. -/
theorem geoRun_extends (fuel : Nat) (st : GeoState) (lines : Lines) (st2 : GeoState)
    (hflag : st.firststdorient = false)
    (h : geoRun fuel st lines = .ok st2) :
    (∃ t, st2.atomcoords = st.atomcoords ++ t) ∧ st2.firststdorient = false := by
  induction fuel generalizing st lines with
  | zero =>
    cases lines with
    | nil =>
      simp only [geoRun, Except.ok.injEq] at h
      subst h
      exact ⟨⟨[], by simp⟩, hflag⟩
    | cons l ls => cases h
  | succ fuel ih =>
    cases lines with
    | nil =>
      simp only [geoRun, Except.ok.injEq] at h
      subst h
      exact ⟨⟨[], by simp⟩, hflag⟩
    | cons l ls =>
      rw [geoRun] at h
      cases hx : geoExtract st l ls with
      | error e => rw [hx] at h; cases h
      | ok p =>
        obtain ⟨stm, restm⟩ := p
        rw [hx] at h
        obtain ⟨⟨t1, he1⟩, hf1⟩ := geoExtract_extends st l ls stm restm hflag hx
        obtain ⟨⟨t2, he2⟩, hf2⟩ := ih stm restm hf1 h
        exact ⟨⟨t1 ++ t2, by rw [he2, he1, List.append_assoc]⟩, hf2⟩

/-- C8.  When the first standard-orientation block is dispatched (flag still
fresh, optimisation not finished), the geometry list right after the block
is exactly the single freshly parsed geometry — every earlier geometry,
including the input-orientation placeholder, is discarded — and the
one-shot flag is spent; from then on every successfully dispatched line only
appends to the geometry list (the discard can never happen again), so the
wiped placeholder never reappears ahead of later geometries. -/
theorem stdorient_discards_placeholder (st : GeoState) (l : Line)
    (rest rest2 : Lines) (st2 : GeoState)
    (htrig : pySub l 1 29 = "COORDINATES OF ALL ATOMS ARE".data)
    (hni : pySub l 11 50 ≠ "ATOMIC                      COORDINATES".data)
    (hne : pySub l 12 40 ≠ "EQUILIBRIUM GEOMETRY LOCATED".data)
    (hgeo : st.geooptfinished = false)
    (hflag : st.firststdorient = true)
    (h : geoExtract st l rest = .ok (st2, rest2)) :
    (∃ g, st2.atomcoords = [g]) ∧ st2.firststdorient = false ∧
    ∀ fuel st3, geoRun fuel st2 rest2 = .ok st3 →
      (∃ t, st3.atomcoords = st2.atomcoords ++ t) ∧ st3.firststdorient = false := by
  unfold geoExtract at h
  rw [if_neg hni, if_neg hne, if_pos ⟨htrig, by simp [hgeo]⟩, if_pos hflag] at h
  obtain ⟨p1, hp1, h⟩ := bindOk h
  obtain ⟨l1, r1⟩ := p1
  obtain ⟨p2, hp2, h⟩ := bindOk h
  obtain ⟨l2, r2⟩ := p2
  obtain ⟨p3, hp3, h⟩ := bindOk h
  obtain ⟨coords, r3⟩ := p3
  simp only [Except.ok.injEq, Prod.mk.injEq] at h
  obtain ⟨hst, -⟩ := h
  subst hst
  refine ⟨⟨coords, by simp⟩, rfl, ?_⟩
  intro fuel st3 hrun
  exact geoRun_extends fuel _ rest2 st3 rfl hrun

/-- Witness for C8: one placeholder input-orientation geometry already
recorded, then a concrete standard-orientation block followed by one
further standard-orientation block; the placeholder is wiped, the first
standard geometry is kept, the second is appended. -/
theorem stdorient_discards_placeholder_witness :
    (∃ g, (⟨[[[1/4, 1/2, 3/4]]], [6], false, false⟩ : GeoState).atomcoords = [g]) ∧
    (⟨[[[1/4, 1/2, 3/4]]], [6], false, false⟩ : GeoState).firststdorient = false ∧
    ∀ fuel st3,
      geoRun fuel (⟨[[[1/4, 1/2, 3/4]]], [6], false, false⟩ : GeoState) [] = .ok st3 →
      (∃ t, st3.atomcoords
          = (⟨[[[1/4, 1/2, 3/4]]], [6], false, false⟩ : GeoState).atomcoords ++ t) ∧
      st3.firststdorient = false :=
  stdorient_discards_placeholder
    ⟨[[[1, 2, 3]]], [6], true, false⟩
    " COORDINATES OF ALL ATOMS ARE (ANGS)".data
    ["   ATOM   CHARGE       X              Y              Z".data,
     " ------------------------------------------------------------".data,
     " C           6.0   0.25   0.50   0.75".data,
     "".data]
    [] ⟨[[[1/4, 1/2, 3/4]]], [6], false, false⟩
    (by decide) (by decide) (by decide) rfl rfl (by decide)

end Gamess

namespace Gamess

/-- One basis shell: a symmetry label and its (exponent, coefficient) rows. -/
abbrev Shell := List Char × List (ℚ × ℚ)

/-- The per-shell coefficient dictionary built row by row
(Python `coeff.setdefault(sym, []).append(...)`). -/
abbrev CoeffMap := List (List Char × List (ℚ × ℚ))

/-- `coeff.setdefault(key, []).append(v)`. -/
def coeffAdd (m : CoeffMap) (key : List Char) (v : ℚ × ℚ) : CoeffMap :=
  match m with
  | [] => [(key, [v])]
  | (k, vs) :: rest =>
    if k = key then (k, vs ++ [v]) :: rest else (k, vs) :: coeffAdd rest key v

/-- Dictionary lookup `coeff[key]` (raises `KeyError` when absent). -/
def coeffGet (m : CoeffMap) (key : List Char) : Option (List (ℚ × ℚ)) :=
  match m with
  | [] => none
  | (k, vs) :: rest => if k = key then some vs else coeffGet rest key

/-- Scan forward until a line containing `pat`
(`line = inputfile.next()` followed by a `while line.find(pat) < 0` loop). -/
def skipUntilFind (pat : List Char) : Lines → Except PErr (Line × Lines)
  | [] => .error .exhausted
  | l :: ls => if 0 ≤ pyFind l pat then .ok (l, ls) else skipUntilFind pat ls

/-- One primitive row of a basis-set block (gamessparser.py, lines 465-481):
token 1 is the shell symmetry (asserted to be S/P/D/F/G/L); an `L` row adds
an S and a P primitive sharing token 3 as exponent, with the coefficient
column depending on the layout (6-token GAMESS-US versus parenthesised
PC-GAMESS); other symmetries add one primitive (5-token versus
parenthesised layout).  Returns the row symmetry and the updated
dictionary. -/
def basisRow (coeff : CoeffMap) (l : Line) : Except PErr (List Char × CoeffMap) := do
  let temp := pySplit (pyStrip l)
  let sym ← orErr (temp.get? 1) .indexErr
  if sym = "S".data ∨ sym = "P".data ∨ sym = "D".data ∨ sym = "F".data ∨
      sym = "G".data ∨ sym = "L".data then
    if sym = "L".data then
      if temp.length = 6 then do
        let t3 ← orErr (temp.get? 3) .indexErr
        let e ← orErr (pyFloat? t3) .valueErr
        let t4 ← orErr (temp.get? 4) .indexErr
        let c4 ← orErr (pyFloat? t4) .valueErr
        let t5 ← orErr (temp.get? 5) .indexErr
        let c5 ← orErr (pyFloat? t5) .valueErr
        .ok (sym, coeffAdd (coeffAdd coeff "S".data (e, c4)) "P".data (e, c5))
      else do
        let t6 ← orErr (temp.get? 6) .indexErr
        let t9 ← orErr (temp.get? 9) .indexErr
        if pyGet t6 (-1) = some ')' ∧ pyGet t9 (-1) = some ')' then do
          let t3 ← orErr (temp.get? 3) .indexErr
          let e ← orErr (pyFloat? t3) .valueErr
          let c6 ← orErr (pyFloat? (pyTake t6 (-1))) .valueErr
          let c9 ← orErr (pyFloat? (pyTake t9 (-1))) .valueErr
          .ok (sym, coeffAdd (coeffAdd coeff "S".data (e, c6)) "P".data (e, c9))
        else .error .assertFail
    else
      if temp.length = 5 then do
        let t3 ← orErr (temp.get? 3) .indexErr
        let e ← orErr (pyFloat? t3) .valueErr
        let t4 ← orErr (temp.get? 4) .indexErr
        let c4 ← orErr (pyFloat? t4) .valueErr
        .ok (sym, coeffAdd coeff sym (e, c4))
      else do
        let t6 ← orErr (temp.get? 6) .indexErr
        if pyGet t6 (-1) = some ')' then do
          let t3 ← orErr (temp.get? 3) .indexErr
          let e ← orErr (pyFloat? t3) .valueErr
          let c6 ← orErr (pyFloat? (pyTake t6 (-1))) .valueErr
          .ok (sym, coeffAdd coeff sym (e, c6))
        else .error .assertFail
  else .error .assertFail

/-- The block-of-rows loop (gamessparser.py, lines 462-482): rows while the
line is non-blank, each followed by an `inputfile.next()`.  Returns the last
row symmetry (`none` when there was no row, mirroring the unbound `sym`),
the dictionary, and the cursor (the blank line that ended the loop plus the
rest of the stream). -/
def basisGroupRows : Line → Lines → CoeffMap → Option (List Char) →
    Except PErr ((Option (List Char) × CoeffMap) × (Line × Lines))
  | line, rest, coeff, lastSym =>
    if pyStrip line = [] then .ok ((lastSym, coeff), (line, rest))
    else
      match basisRow coeff line with
      | .error e => .error e
      | .ok (sym, coeff2) =>
        match rest with
        | [] => .error .exhausted
        | l2 :: rest2 => basisGroupRows l2 rest2 coeff2 (some sym)

/-- The appends after a block of rows (gamessparser.py, lines 484-488): an
`L` block contributes separate S and P shells, others contribute one shell
under the last row symmetry. -/
def appendShells (gb : List Shell) (lastSym : Option (List Char)) (coeff : CoeffMap) :
    Except PErr (List Shell) :=
  match lastSym with
  | none => .error .nameErr
  | some sym =>
    if sym = "L".data then do
      let s ← orErr (coeffGet coeff "S".data) .keyErr
      let p ← orErr (coeffGet coeff "P".data) .keyErr
      .ok (gb ++ [("S".data, s), ("P".data, p)])
    else do
      let c ← orErr (coeffGet coeff sym) .keyErr
      .ok (gb ++ [(sym, c)])

/-- The per-atom loop (gamessparser.py, lines 460-489): while the line is
neither a one-token atom-name line nor a "TOTAL NUMBER" line, read one
block of rows (counted in `shellsize`), append its shells, and advance.
Returns the atom's shells, its `shellsize`, and the cursor. -/
def basisAtomLoop : Nat → Line → Lines → List Shell → Nat →
    Except PErr ((List Shell × Nat) × (Line × Lines))
  | 0, _, _, _, _ => .error .fuelOut
  | fuel + 1, line, rest, gb, ssize =>
    if (pySplit line).length ≠ 1 ∧ pyFind line "TOTAL NUMBER".data < 0 then
      match basisGroupRows line rest [] none with
      | .error e => .error e
      | .ok ((lastSym, coeff), (_, rest2)) =>
        match appendShells gb lastSym coeff with
        | .error e => .error e
        | .ok gb2 =>
          match rest2 with
          | [] => .error .exhausted
          | l3 :: rest3 => basisAtomLoop fuel l3 rest3 gb2 (ssize + 1)
    else .ok ((gb, ssize), (line, rest))

/-- The outer atom-by-atom loop (gamessparser.py, lines 453-496): while no
"TOTAL NUMBER" line is reached, skip a blank, read the first row, take its
leading integer as `shellno`, compute `shellgap = shellno - shellcounter`,
read the atom's shells, then append the atom's `gbasis`
`1 + shellgap / shellsize` times (Python 2 floor division; division by a
zero `shellsize` raises) and set `shellcounter = shellno + shellsize`. -/
def basisOuterLoop : Nat → Line → Lines → Int → List (List Shell) →
    Except PErr (List (List Shell) × (Line × Lines))
  | 0, _, _, _, _ => .error .fuelOut
  | fuel + 1, line, rest, shellcounter, acc =>
    if 0 ≤ pyFind line "TOTAL NUMBER".data then .ok (acc, (line, rest))
    else
      match rest with
      | [] => .error .exhausted
      | _blank :: rest1 =>
        match rest1 with
        | [] => .error .exhausted
        | l2 :: rest2 =>
          match (pySplit l2).get? 0 with
          | none => .error .indexErr
          | some t0 =>
            match pyInt? t0 with
            | none => .error .valueErr
            | some shellno =>
              let shellgap : Int := shellno - shellcounter
              match basisAtomLoop (rest2.length + 1) l2 rest2 [] 0 with
              | .error e => .error e
              | .ok ((gb, ssize), (l3, rest3)) =>
                if ssize = 0 then .error .zeroDiv
                else
                  let numtoadd : Int := 1 + Int.fdiv shellgap ssize
                  basisOuterLoop fuel l3 rest3 (shellno + ssize)
                    (acc ++ List.replicate numtoadd.toNat gb)

/-- The "ATOMIC BASIS SET" sub-parser (gamessparser.py, lines 443-496),
entered after the trigger line: skip to the "SHELL" header, consume a blank
and the first atom-name line, and run the outer loop with
`shellcounter = 1`. -/
def atomicBasisSet (rest : Lines) : Except PErr (List (List Shell) × (Line × Lines)) :=
  match skipUntilFind "SHELL".data rest with
  | .error e => .error e
  | .ok (shellLine, rest1) =>
    match rest1 with
    | [] => .error .exhausted
    | _blank :: rest2 =>
      match rest2 with
      | [] => .error .exhausted
      | _atomname :: rest3 => basisOuterLoop (rest3.length + 1) shellLine rest3 1 []

end Gamess

namespace Gamess

/-- The C5 scenario exactly as claimed: the block describes shells 1-3 for
atom 1 (`shellsize == 3`) and then jumps directly to shell index 4 for
atom 2. -/
def gbasisClaimInput : Lines :=
  [" SHELL TYPE PRIMITIVE     EXPONENT      CONTRACTION COEFFICIENTS".data,
   "".data,
   " C".data,
   "".data,
   "      1   S       1      1.5      0.25".data,
   "".data,
   "      2   S       2      2.5      0.35".data,
   "".data,
   "      3   S       3      3.5      0.45".data,
   "".data,
   " H".data,
   "".data,
   "      4   S       4      4.5      0.55".data,
   "".data,
   " TOTAL NUMBER OF BASIS FUNCTIONS =    5".data]

/-- A variant of the scenario with a real shell-number jump: atom 2 starts
at shell 7 (gap 3 over `shellcounter = 4`) and itself has 3 shells. -/
def gbasisJumpInput : Lines :=
  [" SHELL TYPE PRIMITIVE     EXPONENT      CONTRACTION COEFFICIENTS".data,
   "".data,
   " C".data,
   "".data,
   "      1   S       1      1.5      0.25".data,
   "".data,
   "      2   S       2      2.5      0.35".data,
   "".data,
   "      3   S       3      3.5      0.45".data,
   "".data,
   " H".data,
   "".data,
   "      7   S       4      4.5      0.55".data,
   "".data,
   "      8   S       5      5.5      0.65".data,
   "".data,
   "      9   S       6      6.5      0.75".data,
   "".data,
   " TOTAL NUMBER OF BASIS FUNCTIONS =    5".data]

/-- The shells parsed for atom 1 in both scenarios. -/
def gbasisAtom1 : List Shell :=
  [("S".data, [(3/2, 1/4)]), ("S".data, [(5/2, 7/20)]), ("S".data, [(7/2, 9/20)])]

/-- The shells parsed for atom 2 in the claimed scenario. -/
def gbasisAtom2 : List Shell := [("S".data, [(9/2, 11/20)])]

/-- The shells parsed for atom 2 in the jump scenario. -/
def gbasisAtom2Jump : List Shell :=
  [("S".data, [(9/2, 11/20)]), ("S".data, [(11/2, 13/20)]), ("S".data, [(13/2, 3/4)])]

set_option synthInstance.maxSize 4000

set_option maxRecDepth 4000

/-- C5 counterexample.  In the scenario the claim describes (shells 1-3 for
atom 1, `shellsize == 3`, atom 2 starting at shell 4), the description of
atom 1 is appended to `gbasis` exactly once, not twice: `shellcounter`
already equals `shellno + shellsize = 4` after atom 1, so `shellgap = 0`
and `numtoadd = 1` at atom 2. -/
theorem gbasis_shelljump_counterexample :
    atomicBasisSet gbasisClaimInput
      = .ok ([gbasisAtom1, gbasisAtom2],
          (" TOTAL NUMBER OF BASIS FUNCTIONS =    5".data, [])) ∧
    [gbasisAtom1, gbasisAtom2].count gbasisAtom1 = 1 ∧
    gbasisAtom1 ≠ gbasisAtom2 :=
  ⟨by decide, by decide, by decide⟩

/-- C5 amended.  Replication happens when the next atom's first shell index
exceeds `shellcounter` (previous first shell + previous `shellsize`): with
atom 2 starting at shell 7 (`shellgap = 3`) and `shellsize = 3` for atom 2,
`numtoadd = 1 + 3/3 = 2` and it is atom 2's own description — the current
atom's, not atom 1's — that is appended twice; atom 1's is appended once. -/
theorem gbasis_shelljump_amended :
    atomicBasisSet gbasisJumpInput
      = .ok ([gbasisAtom1, gbasisAtom2Jump, gbasisAtom2Jump],
          (" TOTAL NUMBER OF BASIS FUNCTIONS =    5".data, [])) ∧
    [gbasisAtom1, gbasisAtom2Jump, gbasisAtom2Jump].count gbasisAtom2Jump = 2 ∧
    [gbasisAtom1, gbasisAtom2Jump, gbasisAtom2Jump].count gbasisAtom1 = 1 ∧
    gbasisAtom1 ≠ gbasisAtom2Jump :=
  ⟨by decide, by decide, by decide, by decide⟩

end Gamess

namespace Gamess

/-- Negate the last element (`newfreq[-1] = -newfreq[-1]`). -/
def negLast : List ℚ → List ℚ
  | [] => []
  | [x] => [-x]
  | x :: y :: xs => x :: negLast (y :: xs)

/-- The frequency-row scan (gamessparser.py, lines 396-401): tokens that are
not "I" are parsed as floats and appended; an "I" token negates the value
before it (IndexError when there is none). -/
def procFreq : List (List Char) → List ℚ → Except PErr (List ℚ)
  | [], acc => .ok acc
  | t :: ts, acc =>
    if t ≠ "I".data then
      match pyFloat? t with
      | none => .error .valueErr
      | some v => procFreq ts (acc ++ [v])
    else
      match acc with
      | [] => .error .indexErr
      | _ :: _ => procFreq ts (negLast acc)

/-- `line = inputfile.next()` followed by `while line != blank: line = next()`:
consume lines until one equal to the saved blank, returning the stream
after it. -/
def skipUntilEq (blank : Line) : Lines → Except PErr Lines
  | [] => .error .exhausted
  | l :: ls => if l = blank then .ok ls else skipUntilEq blank ls

/-- Skip a fixed number of lines (`for j in range(n): line = next()`). -/
def skipN : Nat → Lines → Except PErr Lines
  | 0, rest => .ok rest
  | _ + 1, [] => .error .exhausted
  | k + 1, _ :: ls => skipN k ls

/-- The scan to the "MODES m TO n" header (gamessparser.py, lines 372-375),
recording whether a "THIS IS NOT A STATIONARY POINT" banner was seen. -/
def vibModesScan : Lines → Bool → Except PErr ((Line × Bool) × Lines)
  | [], _ => .error .exhausted
  | l :: ls, w =>
    let w2 := if 0 ≤ pyFind l "THIS IS NOT A STATIONARY POINT".data then true else w
    if 0 ≤ pyFind l "MODES".data then .ok ((l, w2), ls)
    else vibModesScan ls w2

/-- One displacement row (gamessparser.py, lines 423-426): floats of
`line[21:]`, appended into the first `len(broken)` of the five per-mode
accumulators (`IndexError` past five). -/
def readDispRow (q : List (List ℚ)) (l : Line) :
    Except PErr (List (List ℚ) × List ℚ) :=
  match mapFloats (pySplit (l.drop 21)) with
  | none => .error .valueErr
  | some broken =>
    if broken.length ≤ q.length then
      .ok (q.zipWith (fun ql b => ql ++ [b]) broken ++ q.drop broken.length, broken)
    else .error .indexErr

/-- The three axis rows of one atom (`for k in range(3)`); threads the
Python variable `broken` (the most recent row parse). -/
def readDispAtom : Nat → List (List ℚ) → Lines → Option (List ℚ) →
    Except PErr ((List (List ℚ) × Option (List ℚ)) × Lines)
  | 0, q, rest, broken => .ok ((q, broken), rest)
  | k + 1, q, rest, _ =>
    match rest with
    | [] => .error .exhausted
    | l :: ls =>
      match readDispRow q l with
      | .error e => .error e
      | .ok (q2, b) => readDispAtom k q2 ls (some b)

/-- The per-atom displacement loop (gamessparser.py, lines 419-428):
`for j in range(len(self.atomnos))`; each atom contributes its per-mode
triples to the first `len(broken)` per-mode block accumulators. -/
def readDispAtoms : Nat → List (List (List ℚ)) → Lines → Option (List ℚ) →
    Except PErr ((List (List (List ℚ)) × Option (List ℚ)) × Lines)
  | 0, p, rest, broken => .ok ((p, broken), rest)
  | j + 1, p, rest, broken =>
    match readDispAtom 3 [[], [], [], [], []] rest broken with
    | .error e => .error e
    | .ok ((q, b), rest2) =>
      match b with
      | none => .error .nameErr
      | some bl =>
        readDispAtoms j
          ((p.take bl.length).zipWith (fun pk qk => pk ++ [qk]) (q.take bl.length)
            ++ p.drop bl.length)
          rest2 (some bl)

/-- The vibrational accumulators (`vibfreqs`, `vibirs`, optional
`vibramans`, `vibdisps`: per mode, per atom, per axis). -/
structure VibAcc where
  vibfreqs : List ℚ
  vibirs : List ℚ
  vibramans : Option (List ℚ)
  vibdisps : List (List (List ℚ))
  deriving Repr, DecidableEq

/-- The per-block loop of the vibrational sub-parser (gamessparser.py,
lines 391-435): while the mode-numbers line does not announce "SAYVETZ",
read the frequency row (with imaginary-frequency handling), an optional
reduced-mass row, the IR-intensity row (converted), an optional Raman pair,
assert the blank, read `3 × natom` displacement rows, extend `vibdisps`
with the first `len(broken)` per-mode lists, skip the ten Sayvetz lines,
rebind `blank` and read the next mode-numbers line. -/
def vibBlockBody (natom : Nat)
    (recur : Line → Line → Lines → VibAcc → Option (List ℚ) →
      Except PErr (VibAcc × Lines))
    (freqNo blank : Line) (rest : Lines) (acc : VibAcc)
    (lastBroken : Option (List ℚ)) : Except PErr (VibAcc × Lines) :=
    if pyFind freqNo "SAYVETZ".data = -1 then
      match rest with
      | [] => .error .exhausted
      | lf :: rest1 =>
        match procFreq ((pySplit (pyStrip lf)).drop 1) [] with
        | .error e => .error e
        | .ok newfreq =>
          let acc1 := { acc with vibfreqs := acc.vibfreqs ++ newfreq }
          match rest1 with
          | [] => .error .exhausted
          | lIR0 :: rest2 =>
            match (if 0 ≤ pyFind lIR0 "REDUCED".data then pNext rest2
                   else .ok (lIR0, rest2)) with
            | .error e => .error e
            | .ok (lIR, rest3) =>
              match mapFloats ((pySplit (pyStrip lIR)).drop 2) with
              | none => .error .valueErr
              | some irvals =>
                let irconv := irvals.map
                  (fun x => convertor x "Debye^2/amu-Angstrom^2" "km/mol")
                let acc2 := { acc1 with vibirs := acc1.vibirs ++ irconv }
                match rest3 with
                | [] => .error .exhausted
                | lR :: rest4 =>
                  match (if 0 ≤ pyFind lR "RAMAN".data then
                      match mapFloats ((pySplit (pyStrip lR)).drop 2) with
                      | none => .error .valueErr
                      | some rvals =>
                        match rest4 with
                        | [] => .error .exhausted
                        | _depol :: rest5 =>
                          match rest5 with
                          | [] => .error .exhausted
                          | lnext :: rest6 =>
                            .ok ((some (acc2.vibramans.getD [] ++ rvals), lnext), rest6)
                    else .ok ((none, lR), rest4) :
                      Except PErr ((Option (List ℚ) × Line) × Lines)) with
                  | .error e => .error e
                  | .ok ((ramanUpd, lineAfter), rest7) =>
                    let acc3 := match ramanUpd with
                      | none => acc2
                      | some r => { acc2 with vibramans := some r }
                    if lineAfter = blank then
                      match readDispAtoms natom [[], [], [], [], []] rest7 lastBroken with
                      | .error e => .error e
                      | .ok ((p, b), rest8) =>
                        match b with
                        | none => .error .nameErr
                        | some bl =>
                          let acc4 := { acc3 with
                            vibdisps := acc3.vibdisps ++ p.take bl.length }
                          match skipN 10 rest8 with
                          | .error e => .error e
                          | .ok rest9 =>
                            match rest9 with
                            | [] => .error .exhausted
                            | blank2 :: rest10 =>
                              match rest10 with
                              | [] => .error .exhausted
                              | freqNo2 :: rest11 =>
                                recur freqNo2 blank2 rest11 acc4 (some bl)
                    else .error .assertFail
    else .ok (acc, rest)

def vibBlockLoop : Nat → Nat → Line → Line → Lines → VibAcc → Option (List ℚ) →
    Except PErr (VibAcc × Lines)
  | 0, _, _, _, _, _, _ => .error .fuelOut
  | fuel + 1, natom, freqNo, blank, rest, acc, lastBroken =>
    vibBlockBody natom (vibBlockLoop fuel natom) freqNo blank rest acc lastBroken

theorem vibBlockLoop_succ (fuel natom : Nat) (freqNo blank : Line) (rest : Lines)
    (acc : VibAcc) (lastBroken : Option (List ℚ)) :
    vibBlockLoop (fuel + 1) natom freqNo blank rest acc lastBroken
      = vibBlockBody natom (vibBlockLoop fuel natom) freqNo blank rest acc lastBroken :=
  rfl

/-- The vibrational-analysis sub-parser (gamessparser.py, lines 367-441),
entered after the "NORMAL COORDINATE ANALYSIS" trigger line: find the
"MODES m TO n" header (watching for the non-stationary-point banner), read
`startrot`/`endrot`, skip the blank-delimited units paragraph (twice when
the banner was present), run the block loop, and finally slice all
accumulated sequences to `seq[:startrot-1] + seq[endrot:]`. -/
def vibSection (natom fuel : Nat) (rest : Lines) : Except PErr (VibAcc × Lines) :=
  match vibModesScan rest false with
  | .error e => .error e
  | .ok ((modesLine, warning), rest1) =>
    match (pySplit modesLine).get? 1 with
    | none => .error .indexErr
    | some t1 =>
      match pyInt? t1 with
      | none => .error .valueErr
      | some startrot =>
        match (pySplit modesLine).get? 3 with
        | none => .error .indexErr
        | some t3 =>
          match pyInt? t3 with
          | none => .error .valueErr
          | some endrot =>
            match rest1 with
            | [] => .error .exhausted
            | blank :: rest2 =>
              match skipUntilEq blank rest2 with
              | .error e => .error e
              | .ok rest3 =>
                match (if warning then skipUntilEq blank rest3 else .ok rest3) with
                | .error e => .error e
                | .ok rest4 =>
                  match rest4 with
                  | [] => .error .exhausted
                  | freqNo :: rest5 =>
                    match vibBlockLoop fuel natom freqNo blank rest5
                        ⟨[], [], none, []⟩ none with
                    | .error e => .error e
                    | .ok (acc, rest6) =>
                      .ok (⟨pyTake acc.vibfreqs (startrot - 1) ++ pyDrop acc.vibfreqs endrot,
                            pyTake acc.vibirs (startrot - 1) ++ pyDrop acc.vibirs endrot,
                            acc.vibramans.map
                              (fun r => pyTake r (startrot - 1) ++ pyDrop r endrot),
                            pyTake acc.vibdisps (startrot - 1) ++ pyDrop acc.vibdisps endrot⟩,
                           rest6)

end Gamess

namespace Gamess

/-- A well-formed whitespace-separated token: non-empty and space-free. -/
def goodTok (t : List Char) : Prop := t ≠ [] ∧ ∀ c ∈ t, isSpc c = false

instance (t : List Char) : Decidable (goodTok t) := by
  unfold goodTok; infer_instance

/-- Join tokens, each preceded by one space. -/
def joinToks (toks : List (List Char)) : List Char :=
  (toks.map (fun t => ' ' :: t)).flatten

/-- The fixed numeric literal used for the generated IR-intensity and
displacement entries (the C6 claim is about sequence lengths, which do not
depend on those values). -/
def vibVal : List Char := "1.0".data

/-- Generated "MODES m TO n ..." header line. -/
def vibModesLine (mTok nTok : List Char) : Line :=
  "MODES".data ++ joinToks [mTok, "TO".data, nTok,
    "ARE".data, "TAKEN".data, "AS".data, "ROTATIONS".data, "AND".data,
    "TRANSLATIONS.".data]

/-- Generated mode-numbers line (its content is never parsed; it only must
not contain "SAYVETZ"). -/
def vibModeRow : Line := "          1".data

/-- Generated frequency row carrying the block's tokens. -/
def vibFreqRow (toks : List (List Char)) : Line :=
  "FREQUENCY:".data ++ joinToks toks

/-- Generated IR-intensity row with `c` fixed-value columns. -/
def vibIrRow (c : Nat) : Line :=
  "IR".data ++ joinToks ("INTENSITY:".data :: List.replicate c vibVal)

/-- Generated displacement row: 21 ignored characters then `c` fixed-value
columns. -/
def vibDispRow (c : Nat) : Line :=
  List.replicate 21 ' ' ++ joinToks (List.replicate c vibVal)

/-- The lines of one generated mode block after its mode-numbers line:
frequency row, IR row, blank, `3·natom` displacement rows, ten trailer
lines, blank. -/
def vibBlockLines (natom : Nat) (b : List (List Char)) : Lines :=
  [vibFreqRow b, vibIrRow b.length, []] ++
  List.replicate (natom * 3) (vibDispRow b.length) ++
  List.replicate 10 "X".data ++ [[]]

/-- The terminator line announcing the Sayvetz conditions. -/
def vibTermLine : Line := " SAYVETZ CONDITIONS SATISFIED".data

/-- A generated vibrational-analysis section: header paragraph, one
mode-numbers line plus block lines per block, and the SAYVETZ terminator. -/
def mkVibInput (mTok nTok : List Char) (natom : Nat)
    (blocks : List (List (List Char))) : Lines :=
  [vibModesLine mTok nTok,
   [],
   "FREQUENCIES IN CM**-1, IR INTENSITIES IN DEBYE**2/AMU-ANGSTROM**2".data,
   []] ++
  (blocks.map (fun b => vibModeRow :: vibBlockLines natom b)).flatten ++
  [vibTermLine]

end Gamess

namespace Gamess

theorem pySplitAux_nonspace (t : List Char) (ht : ∀ c ∈ t, isSpc c = false) :
    ∀ (rest acc : List Char),
      pySplitAux (t ++ rest) acc = pySplitAux rest (t.reverse ++ acc) := by
  induction t with
  | nil => intro rest acc; simp
  | cons c cs ih =>
    intro rest acc
    have hc : isSpc c = false := ht c (by simp)
    have hcs : ∀ x ∈ cs, isSpc x = false := fun x hx => ht x (by simp [hx])
    simp only [List.cons_append, pySplitAux, hc, Bool.false_eq_true, if_false,
      List.append_eq]
    rw [ih hcs rest (c :: acc)]
    simp

theorem pySplitAux_joinToks (toks : List (List Char)) (h : ∀ t ∈ toks, goodTok t) :
    ∀ acc, pySplitAux (joinToks toks) acc
      = (if acc = [] then [] else [acc.reverse]) ++ toks := by
  induction toks with
  | nil =>
    intro acc
    simp only [joinToks, List.map_nil, List.flatten_nil, pySplitAux, List.append_nil]
  | cons t ts ih =>
    intro acc
    obtain ⟨htne, htns⟩ := h t (by simp)
    have hts : ∀ x ∈ ts, goodTok x := fun x hx => h x (by simp [hx])
    have hjoin : joinToks (t :: ts) = ' ' :: (t ++ joinToks ts) := by
      simp [joinToks]
    rw [hjoin]
    have hsp : isSpc ' ' = true := by decide
    simp only [pySplitAux, hsp, if_true]
    rw [pySplitAux_nonspace t htns (joinToks ts) [], ih hts]
    have htr : t.reverse ++ [] ≠ [] := by simp [htne]
    by_cases hacc : acc = []
    · simp [hacc, htr, htne]
    · simp [hacc, htr, htne]

theorem pySplit_label_join (label : List Char) (toks : List (List Char))
    (hl : goodTok label) (h : ∀ t ∈ toks, goodTok t) :
    pySplit (label ++ joinToks toks) = label :: toks := by
  unfold pySplit
  rw [pySplitAux_nonspace label hl.2 (joinToks toks) [], pySplitAux_joinToks toks h]
  simp [hl.1]

theorem pySplit_joinToks (toks : List (List Char)) (h : ∀ t ∈ toks, goodTok t) :
    pySplit (joinToks toks) = toks := by
  unfold pySplit
  rw [pySplitAux_joinToks toks h]
  simp

theorem pySplitAux_dropWhile (s : List Char) :
    pySplitAux (s.dropWhile isSpc) [] = pySplitAux s [] := by
  induction s with
  | nil => rfl
  | cons c cs ih =>
    by_cases hc : isSpc c = true
    · rw [List.dropWhile_cons_of_pos hc, ih]
      simp [pySplitAux, hc]
    · rw [List.dropWhile_cons_of_neg hc]

theorem pySplitAux_append_space (c : Char) (hc : isSpc c = true) :
    ∀ (s acc : List Char), pySplitAux (s ++ [c]) acc = pySplitAux s acc := by
  intro s
  induction s with
  | nil =>
    intro acc
    by_cases hacc : acc = [] <;> simp [pySplitAux, hc, hacc]
  | cons d ds ih =>
    intro acc
    simp only [List.cons_append, pySplitAux]
    by_cases hd : isSpc d = true
    · by_cases hacc : acc = [] <;> simp [hd, hacc, ih]
    · simp only [hd, Bool.false_eq_true, if_false]
      exact ih (d :: acc)

theorem pySplitAux_append_spaces (u : List Char) (hu : ∀ c ∈ u, isSpc c = true) :
    ∀ (s acc : List Char), pySplitAux (s ++ u) acc = pySplitAux s acc := by
  induction u with
  | nil => intro s acc; simp
  | cons c cs ih =>
    intro s acc
    have : s ++ c :: cs = (s ++ [c]) ++ cs := by simp
    rw [this, ih (fun x hx => hu x (by simp [hx])) (s ++ [c]) acc,
      pySplitAux_append_space c (hu c (by simp)) s acc]

theorem pySplit_pyStrip (s : List Char) : pySplit (pyStrip s) = pySplit s := by
  show pySplitAux (pyStrip s) [] = pySplitAux s []
  rw [← pySplitAux_dropWhile s]
  have hdec : s.dropWhile isSpc
      = ((s.dropWhile isSpc).reverse.dropWhile isSpc).reverse
        ++ ((s.dropWhile isSpc).reverse.takeWhile isSpc).reverse := by
    conv_lhs => rw [← List.reverse_reverse (s.dropWhile isSpc),
      ← List.takeWhile_append_dropWhile isSpc ((s.dropWhile isSpc).reverse)]
    rw [List.reverse_append]
  have hsp : ∀ c ∈ ((s.dropWhile isSpc).reverse.takeWhile isSpc).reverse, isSpc c = true := by
    intro c hc
    rw [List.mem_reverse] at hc
    exact List.mem_takeWhile_imp hc
  calc pySplitAux (pyStrip s) []
      = pySplitAux (pyStrip s ++ ((s.dropWhile isSpc).reverse.takeWhile isSpc).reverse) [] :=
        (pySplitAux_append_spaces _ hsp _ _).symm
    _ = pySplitAux (s.dropWhile isSpc) [] := by rw [pyStrip, ← hdec]

theorem pyFind_of_isPrefixOf (s pat : List Char) (h : pat.isPrefixOf s = true) :
    pyFind s pat = 0 := by
  cases s with
  | nil =>
    cases pat with
    | nil => rfl
    | cons c cs => simp [List.isPrefixOf] at h
  | cons c cs => simp [pyFind, h]

theorem pyFind_mem_of_ne_neg (s pat : List Char) :
    pyFind s pat ≠ -1 → ∀ c ∈ pat, c ∈ s := by
  induction s with
  | nil =>
    intro h c hc
    by_cases hp : pat = ([] : List Char)
    · subst hp; cases hc
    · simp [pyFind, hp] at h
  | cons d ds ih =>
    intro h c hc
    by_cases hpre : pat.isPrefixOf (d :: ds) = true
    · exact (List.isPrefixOf_iff_prefix.mp hpre).subset hc
    · simp only [pyFind, hpre, Bool.false_eq_true, if_false] at h
      by_cases hr : pyFind ds pat = -1
      · simp [hr] at h
      · exact List.mem_cons_of_mem d (ih hr c hc)

theorem pyFind_eq_neg_of_not_mem (s pat : List Char) (c : Char)
    (hc : c ∈ pat) (hs : c ∉ s) : pyFind s pat = -1 := by
  by_contra h
  exact hs (pyFind_mem_of_ne_neg s pat h c hc)

theorem mem_joinToks (x : Char) (toks : List (List Char)) :
    x ∈ joinToks toks → x = ' ' ∨ ∃ t ∈ toks, x ∈ t := by
  induction toks with
  | nil => intro h; cases h
  | cons t ts ih =>
    intro h
    have hsplit : joinToks (t :: ts) = (' ' :: t) ++ joinToks ts := by
      simp [joinToks]
    rw [hsplit] at h
    rcases List.mem_append.mp h with h1 | h2
    · rcases List.mem_cons.mp h1 with rfl | hx
      · left; rfl
      · right; exact ⟨t, by simp, hx⟩
    · rcases ih h2 with h3 | ⟨u, hu, hx⟩
      · left; exact h3
      · right; exact ⟨u, by simp [hu], hx⟩

theorem mapFloats_replicate (c : Nat) :
    mapFloats (List.replicate c vibVal) = some (List.replicate c (1 : ℚ)) := by
  induction c with
  | zero => rfl
  | succ n ih =>
    have h1 : pyFloat? vibVal = some 1 := by decide
    rw [List.replicate_succ, List.replicate_succ]
    simp [mapFloats, h1, ih]

theorem length_filterMap_of_isSome {α β : Type} (f : α → Option β) :
    ∀ l : List α, (∀ t ∈ l, (f t).isSome) → (l.filterMap f).length = l.length := by
  intro l
  induction l with
  | nil => intro _; rfl
  | cons a as ih =>
    intro h
    have ha := h a (by simp)
    rw [List.filterMap_cons]
    cases hf : f a with
    | none => rw [hf] at ha; cases ha
    | some b => simp [hf, ih (fun t ht => h t (by simp [ht]))]

theorem procFreq_all_good (toks : List (List Char))
    (h : ∀ t ∈ toks, t ≠ "I".data ∧ (pyFloat? t).isSome) :
    ∀ acc, procFreq toks acc = .ok (acc ++ toks.filterMap pyFloat?) := by
  induction toks with
  | nil => intro acc; simp [procFreq]
  | cons t ts ih =>
    intro acc
    obtain ⟨hne, hsome⟩ := h t (by simp)
    rw [Option.isSome_iff_exists] at hsome
    obtain ⟨v, hv⟩ := hsome
    have step : procFreq (t :: ts) acc = procFreq ts (acc ++ [v]) := by
      simp [procFreq, hne, hv]
    rw [step, ih (fun x hx => h x (by simp [hx])) (acc ++ [v]),
      List.filterMap_cons, hv]
    simp

theorem zipWith_replicate_same {α β γ : Type} (f : α → β → γ) (n : Nat) (a : α) (b : β) :
    List.zipWith f (List.replicate n a) (List.replicate n b)
      = List.replicate n (f a b) := by
  induction n with
  | zero => rfl
  | succ k ih => simp [List.replicate_succ, ih]

theorem skipN_replicate {x : Line} : ∀ (n : Nat) (rest : Lines),
    skipN n (List.replicate n x ++ rest) = .ok rest := by
  intro n
  induction n with
  | zero => intro rest; rfl
  | succ k ih => intro rest; rw [List.replicate_succ, List.cons_append]; exact ih rest

end Gamess

namespace Gamess

theorem readDispRow_gen (c k : Nat) (x : List ℚ) :
    readDispRow (List.replicate c x ++ List.replicate k ([] : List ℚ)) (vibDispRow c)
      = .ok (List.replicate c (x ++ [1]) ++ List.replicate k [],
             List.replicate c (1 : ℚ)) := by
  have hdrop : (vibDispRow c).drop 21 = joinToks (List.replicate c vibVal) :=
    List.drop_left' (by simp)
  have hsplit : pySplit (joinToks (List.replicate c vibVal)) = List.replicate c vibVal :=
    pySplit_joinToks _ (by
      intro t ht
      rw [List.eq_of_mem_replicate ht]
      decide)
  have hlen : (List.replicate c (1 : ℚ)).length
      ≤ (List.replicate c x ++ List.replicate k ([] : List ℚ)).length := by simp
  have hzip : List.zipWith (fun ql b => ql ++ [b])
      (List.replicate c x ++ List.replicate k ([] : List ℚ)) (List.replicate c (1 : ℚ))
      = List.replicate c (x ++ [1]) := by
    rw [show List.replicate c (1 : ℚ) = List.replicate c (1 : ℚ) ++ [] from
      (List.append_nil _).symm]
    rw [List.zipWith_append _ _ _ _ _ (by simp)]
    rw [zipWith_replicate_same]
    simp
  have hdrop2 : (List.replicate c x ++ List.replicate k ([] : List ℚ)).drop
      (List.replicate c (1 : ℚ)).length = List.replicate k [] :=
    List.drop_left' (by simp)
  unfold readDispRow
  rw [hdrop, hsplit, mapFloats_replicate]
  simp only [hlen, ite_true, if_true, hzip, hdrop2]

theorem readDispAtom_succ (n : Nat) (q : List (List ℚ)) (l : Line) (ls : Lines)
    (lb : Option (List ℚ)) :
    readDispAtom (n + 1) q (l :: ls) lb
      = match readDispRow q l with
        | .error e => .error e
        | .ok (q2, b) => readDispAtom n q2 ls (some b) := rfl

theorem readDispAtom_succ_ok (n : Nat) (q : List (List ℚ)) (l : Line) (ls : Lines)
    (lb : Option (List ℚ)) (q2 : List (List ℚ)) (b : List ℚ)
    (h : readDispRow q l = .ok (q2, b)) :
    readDispAtom (n + 1) q (l :: ls) lb = readDispAtom n q2 ls (some b) := by
  rw [readDispAtom_succ, h]

theorem readDispAtom_zero (q : List (List ℚ)) (rest : Lines) (lb : Option (List ℚ)) :
    readDispAtom 0 q rest lb = .ok ((q, lb), rest) := rfl

theorem readDispAtom_three (c k : Nat) (rest : Lines) (lb : Option (List ℚ)) :
    readDispAtom 3 (List.replicate c ([] : List ℚ) ++ List.replicate k [])
      (vibDispRow c :: vibDispRow c :: vibDispRow c :: rest) lb
    = .ok ((List.replicate c [(1 : ℚ), 1, 1] ++ List.replicate k [],
            some (List.replicate c (1 : ℚ))), rest) := by
  rw [show (3 : Nat) = 2 + 1 from rfl,
    readDispAtom_succ_ok 2 _ _ _ _ _ _ (readDispRow_gen c k []),
    show (2 : Nat) = 1 + 1 from rfl,
    readDispAtom_succ_ok 1 _ _ _ _ _ _ (readDispRow_gen c k ([] ++ [1])),
    readDispAtom_succ_ok 0 _ _ _ _ _ _ (readDispRow_gen c k (([] ++ [1]) ++ [1])),
    readDispAtom_zero]
  simp

theorem readDispAtoms_succ (j : Nat) (p : List (List (List ℚ))) (rest : Lines)
    (lb : Option (List ℚ)) :
    readDispAtoms (j + 1) p rest lb
      = match readDispAtom 3 [[], [], [], [], []] rest lb with
        | .error e => .error e
        | .ok ((q, b), rest2) =>
          match b with
          | none => .error .nameErr
          | some bl =>
            readDispAtoms j
              ((p.take bl.length).zipWith (fun pk qk => pk ++ [qk]) (q.take bl.length)
                ++ p.drop bl.length) rest2 (some bl) := rfl

theorem readDispAtoms_succ_ok (j : Nat) (p : List (List (List ℚ))) (rest : Lines)
    (lb : Option (List ℚ)) (q : List (List ℚ)) (bl : List ℚ) (rest2 : Lines)
    (h : readDispAtom 3 [[], [], [], [], []] rest lb = .ok ((q, some bl), rest2)) :
    readDispAtoms (j + 1) p rest lb
      = readDispAtoms j
          ((p.take bl.length).zipWith (fun pk qk => pk ++ [qk]) (q.take bl.length)
            ++ p.drop bl.length) rest2 (some bl) := by
  rw [readDispAtoms_succ, h]

theorem readDispAtoms_zero (p : List (List (List ℚ))) (rest : Lines)
    (lb : Option (List ℚ)) : readDispAtoms 0 p rest lb = .ok ((p, lb), rest) := rfl

theorem q0_eq_replicate {α : Type} (c k : Nat) (h5 : c + k = 5) :
    ([[], [], [], [], []] : List (List α))
      = List.replicate c [] ++ List.replicate k [] := by
  rw [← List.replicate_add, h5]
  rfl

theorem pUpd_replicate (c k : Nat) (Y : List (List ℚ)) :
    ((List.replicate c Y ++ List.replicate k ([] : List (List ℚ))).take
        (List.replicate c (1 : ℚ)).length).zipWith (fun pk qk => pk ++ [qk])
        ((List.replicate c [(1 : ℚ), 1, 1] ++ List.replicate k []).take
          (List.replicate c (1 : ℚ)).length)
      ++ (List.replicate c Y ++ List.replicate k ([] : List (List ℚ))).drop
          (List.replicate c (1 : ℚ)).length
    = List.replicate c (Y ++ [[(1 : ℚ), 1, 1]]) ++ List.replicate k [] := by
  rw [List.take_left' (by simp), List.take_left' (by simp),
    List.drop_left' (by simp), zipWith_replicate_same]

theorem readDispAtoms_run (c k : Nat) (h5 : c + k = 5) : ∀ (natom : Nat)
    (Y : List (List ℚ)) (rest : Lines) (lb : Option (List ℚ)),
    readDispAtoms (natom + 1)
      (List.replicate c Y ++ List.replicate k ([] : List (List ℚ)))
      (List.replicate ((natom + 1) * 3) (vibDispRow c) ++ rest) lb
    = .ok ((List.replicate c (Y ++ List.replicate (natom + 1) [(1 : ℚ), 1, 1])
            ++ List.replicate k [],
            some (List.replicate c (1 : ℚ))), rest) := by
  intro natom
  induction natom with
  | zero =>
    intro Y rest lb
    have h3 := readDispAtom_three c k rest lb
    rw [← q0_eq_replicate c k h5] at h3
    rw [show List.replicate ((0 + 1) * 3) (vibDispRow c) ++ rest
        = vibDispRow c :: vibDispRow c :: vibDispRow c :: rest from rfl]
    rw [readDispAtoms_succ_ok 0 _ _ _ _ _ _ h3, pUpd_replicate, readDispAtoms_zero]
    rfl
  | succ m ih =>
    intro Y rest lb
    have hsplit3 : List.replicate ((m + 1 + 1) * 3) (vibDispRow c) ++ rest
        = vibDispRow c :: vibDispRow c :: vibDispRow c ::
          (List.replicate ((m + 1) * 3) (vibDispRow c) ++ rest) := by
      rw [show (m + 1 + 1) * 3 = 3 + (m + 1) * 3 from by ring, List.replicate_add]
      rfl
    have h3 := readDispAtom_three c k
      (List.replicate ((m + 1) * 3) (vibDispRow c) ++ rest) lb
    rw [← q0_eq_replicate c k h5] at h3
    rw [hsplit3, readDispAtoms_succ_ok (m + 1) _ _ _ _ _ _ h3, pUpd_replicate]
    rw [ih (Y ++ [[(1 : ℚ), 1, 1]]) rest (some (List.replicate c 1))]
    rw [show (Y ++ [[(1 : ℚ), 1, 1]]) ++ List.replicate (m + 1) [(1 : ℚ), 1, 1]
        = Y ++ List.replicate (m + 1 + 1) [(1 : ℚ), 1, 1] from by
      rw [List.append_assoc]
      rfl]

end Gamess

namespace Gamess

/-- Conditions on a generated mode block: between 1 and 5 modes, and every
frequency token is a well-formed non-"I" float token. -/
def blockOk (b : List (List Char)) : Prop :=
  1 ≤ b.length ∧ b.length ≤ 5 ∧
    ∀ t ∈ b, goodTok t ∧ t ≠ "I".data ∧ (pyFloat? t).isSome

instance (b : List (List Char)) : Decidable (blockOk b) := by
  unfold blockOk; infer_instance

/-- The expected contribution of one generated block to the accumulators. -/
def extendAcc (natom : Nat) (a : VibAcc) (b : List (List Char)) : VibAcc :=
  ⟨a.vibfreqs ++ b.filterMap pyFloat?,
   a.vibirs ++ List.replicate b.length (convertor 1 "Debye^2/amu-Angstrom^2" "km/mol"),
   a.vibramans,
   a.vibdisps ++ List.replicate b.length (List.replicate natom [(1 : ℚ), 1, 1])⟩

/-- The line at which the block loop stands when entered: the first block's
mode-numbers line, or the terminator when there is no block. -/
def vibHeadLine (blocks : List (List (List Char))) : Line :=
  match blocks with
  | [] => vibTermLine
  | _ :: _ => vibModeRow

/-- The stream after that line. -/
def vibTailLines (natom : Nat) : List (List (List Char)) → Lines
  | [] => []
  | b :: bs => vibBlockLines natom b ++ vibHeadLine bs :: vibTailLines natom bs

theorem vibHeadLine_cons (b : List (List Char)) (bs : List (List (List Char))) :
    vibHeadLine (b :: bs) = vibModeRow := rfl

theorem vibTailLines_cons (natom : Nat) (b : List (List Char))
    (bs : List (List (List Char))) :
    vibTailLines natom (b :: bs)
      = vibBlockLines natom b ++ vibHeadLine bs :: vibTailLines natom bs := rfl

theorem vibStream_eq (natom : Nat) (blocks : List (List (List Char))) :
    (blocks.map (fun b => vibModeRow :: vibBlockLines natom b)).flatten ++ [vibTermLine]
      = vibHeadLine blocks :: vibTailLines natom blocks := by
  induction blocks with
  | nil => rfl
  | cons b bs ih =>
    simp only [List.map_cons, List.flatten_cons, List.cons_append, List.append_assoc, ih]
    rfl

theorem vibBlockLoop_run (m : Nat) :
    ∀ (blocks : List (List (List Char))), (∀ b ∈ blocks, blockOk b) →
    ∀ (acc : VibAcc) (lb : Option (List ℚ)),
    vibBlockLoop (blocks.length + 1) (m + 1) (vibHeadLine blocks) []
        (vibTailLines (m + 1) blocks) acc lb
      = .ok (blocks.foldl (extendAcc (m + 1)) acc, []) := by
  intro blocks
  induction blocks with
  | nil =>
    intro _ acc lb
    have hterm : ¬ (pyFind vibTermLine "SAYVETZ".data = -1) := by decide
    simp [vibHeadLine, vibTailLines, vibBlockLoop, vibBlockBody, hterm]
  | cons b bs ih =>
    intro hb acc lb
    have hbb : blockOk b := hb b (by simp)
    have hbbs : ∀ x ∈ bs, blockOk x := fun x hx => hb x (by simp [hx])
    obtain ⟨hb1, hb5, hbt⟩ := hbb
    have hsay : (pyFind vibModeRow "SAYVETZ".data = -1) := by decide
    have hfreq : procFreq ((pySplit (pyStrip (vibFreqRow b))).drop 1) []
        = .ok (b.filterMap pyFloat?) := by
      rw [show vibFreqRow b = "FREQUENCY:".data ++ joinToks b from rfl,
        pySplit_pyStrip,
        pySplit_label_join _ _ (by decide) (fun t ht => (hbt t ht).1)]
      rw [show (("FREQUENCY:".data :: b).drop 1) = b from rfl,
        procFreq_all_good b (fun t ht => ⟨(hbt t ht).2.1, (hbt t ht).2.2⟩) []]
      simp
    have hD : ('D' : Char) ∉ vibIrRow b.length := by
      intro hmem
      rcases List.mem_append.mp hmem with h1 | h2
      · exact absurd h1 (by decide)
      · rcases mem_joinToks _ _ h2 with h3 | ⟨t, ht, hx⟩
        · exact absurd h3 (by decide)
        · rcases List.mem_cons.mp ht with rfl | hrep
          · exact absurd hx (by decide)
          · rw [List.eq_of_mem_replicate hrep] at hx
            exact absurd hx (by decide)
    have hred : ¬ (0 ≤ pyFind (vibIrRow b.length) "REDUCED".data) := by
      rw [pyFind_eq_neg_of_not_mem _ _ 'D' (by decide) hD]
      decide
    have hir : mapFloats ((pySplit (pyStrip (vibIrRow b.length))).drop 2)
        = some (List.replicate b.length (1 : ℚ)) := by
      rw [show vibIrRow b.length
          = "IR".data ++ joinToks ("INTENSITY:".data :: List.replicate b.length vibVal)
          from rfl,
        pySplit_pyStrip,
        pySplit_label_join _ _ (by decide) (by
          intro t ht
          rcases List.mem_cons.mp ht with rfl | hrep
          · decide
          · rw [List.eq_of_mem_replicate hrep]; decide)]
      rw [show (("IR".data :: "INTENSITY:".data :: List.replicate b.length vibVal).drop 2)
          = List.replicate b.length vibVal from rfl]
      exact mapFloats_replicate _
    have hram : ¬ (0 ≤ pyFind ([] : Line) "RAMAN".data) := by decide
    have hdisp : readDispAtoms (m + 1) [[], [], [], [], []]
        (List.replicate ((m + 1) * 3) (vibDispRow b.length) ++
          (List.replicate 10 "X".data ++
            [] :: vibHeadLine bs :: vibTailLines (m + 1) bs)) lb
        = .ok ((List.replicate b.length
                  (([] : List (List ℚ)) ++ List.replicate (m + 1) [(1 : ℚ), 1, 1])
                ++ List.replicate (5 - b.length) [],
                some (List.replicate b.length (1 : ℚ))),
               List.replicate 10 "X".data ++
                 [] :: vibHeadLine bs :: vibTailLines (m + 1) bs) := by
      rw [q0_eq_replicate b.length (5 - b.length) (by omega)]
      exact readDispAtoms_run b.length (5 - b.length) (by omega) m [] _ lb
    have htake : (List.replicate b.length (List.replicate (m + 1) [(1 : ℚ), 1, 1])
        ++ List.replicate (5 - b.length) []).take
          (List.replicate b.length (1 : ℚ)).length
        = List.replicate b.length (List.replicate (m + 1) [(1 : ℚ), 1, 1]) :=
      List.take_left' (by simp)
    rw [show (b :: bs).length + 1 = (bs.length + 1) + 1 from by simp]
    rw [vibBlockLoop_succ]
    simp only [vibBlockBody, vibHeadLine_cons, vibTailLines_cons, vibBlockLines,
      List.cons_append,
      List.nil_append, List.append_assoc, hsay, reduceIte, hfreq, hred, hir,
      List.map_replicate, hram, hdisp, htake, skipN_replicate]
    rw [ih hbbs _ (some (List.replicate b.length 1))]
    rw [List.foldl_cons]
    rfl

end Gamess

namespace Gamess

/-- The frequency values a generated input carries before the
rotation/translation exclusion. -/
def vibPre (blocks : List (List (List Char))) : List ℚ :=
  (blocks.map (fun b => b.filterMap pyFloat?)).flatten

/-- The total number of modes a generated input describes. -/
def vibTotal (blocks : List (List (List Char))) : Nat :=
  (blocks.map List.length).sum

theorem flatten_filterMap_length :
    ∀ (blocks : List (List (List Char))), (∀ b ∈ blocks, blockOk b) →
      (vibPre blocks).length = vibTotal blocks := by
  intro blocks
  induction blocks with
  | nil => intro _; rfl
  | cons b bs ih =>
    intro hb
    simp only [vibPre, vibTotal, List.map_cons, List.flatten_cons, List.length_append,
      List.sum_cons]
    rw [length_filterMap_of_isSome pyFloat? b
          (fun t ht => ((hb b (by simp)).2.2 t ht).2.2)]
    exact congrArg (fun n => b.length + n) (ih (fun x hx => hb x (by simp [hx])))

theorem foldl_extendAcc (natom : Nat) :
    ∀ (blocks : List (List (List Char))) (a : VibAcc),
      blocks.foldl (extendAcc natom) a
        = ⟨a.vibfreqs ++ vibPre blocks,
           a.vibirs ++ List.replicate (vibTotal blocks)
               (convertor 1 "Debye^2/amu-Angstrom^2" "km/mol"),
           a.vibramans,
           a.vibdisps ++ List.replicate (vibTotal blocks)
               (List.replicate natom [(1 : ℚ), 1, 1])⟩ := by
  intro blocks
  induction blocks with
  | nil =>
    intro a
    cases a
    simp only [List.foldl_nil, vibPre, vibTotal, List.map_nil, List.flatten_nil,
      List.sum_nil, List.replicate_zero, List.append_nil]
  | cons b bs ih =>
    intro a
    rw [List.foldl_cons, ih (extendAcc natom a b)]
    simp only [extendAcc, vibPre, vibTotal, List.map_cons, List.flatten_cons,
      List.sum_cons, List.replicate_add, List.append_assoc]

theorem pyTake_nonneg {α : Type} (l : List α) (i : Int) (h : 0 ≤ i) :
    pyTake l i = l.take i.toNat := by
  simp [pyTake, h]

theorem pyDrop_nonneg {α : Type} (l : List α) (i : Int) (h : 0 ≤ i) :
    pyDrop l i = l.drop i.toNat := by
  simp [pyDrop, h]

theorem slice_length {α : Type} (l : List α) (s e : Int) (h1 : 1 ≤ s) (hse : s ≤ e)
    (he : e ≤ (l.length : Int)) :
    (l.take (s - 1).toNat ++ l.drop e.toNat).length = l.length - (e - s + 1).toNat := by
  rw [List.length_append, List.length_take, List.length_drop,
    Nat.min_eq_left (by omega)]
  omega

end Gamess

namespace Gamess

/-- C6: after the vibrational-analysis sub-parser finishes on a generated
input whose "MODES m TO n" header carries `startrot`/`endrot` and whose
blocks describe `vibTotal blocks` modes in all, `vibfreqs`, `vibirs` and
`vibdisps` have equal length, that length equals the total number of modes
read minus `(endrot - startrot + 1)`, the entries removed from `vibfreqs`
are exactly the `[startrot-1, endrot)` rotation/translation window, and
`vibramans` stays absent when no Raman row was present. -/
theorem vib_lengths_after_exclusion
    (mTok nTok : List Char) (natom : Nat) (blocks : List (List (List Char)))
    (startrot endrot : Int)
    (hmg : goodTok mTok) (hng : goodTok nTok)
    (hm : pyInt? mTok = some startrot) (hn : pyInt? nTok = some endrot)
    (hw : pyFind (vibModesLine mTok nTok) "THIS IS NOT A STATIONARY POINT".data = -1)
    (hnatom : 1 ≤ natom) (hb : ∀ b ∈ blocks, blockOk b)
    (h1 : 1 ≤ startrot) (hse : startrot ≤ endrot)
    (he : endrot ≤ (vibTotal blocks : Int)) :
    ∃ acc rest,
      vibSection natom (blocks.length + 1) (mkVibInput mTok nTok natom blocks)
          = .ok (acc, rest)
      ∧ acc.vibfreqs
          = (vibPre blocks).take (startrot - 1).toNat
            ++ (vibPre blocks).drop endrot.toNat
      ∧ acc.vibfreqs.length = vibTotal blocks - (endrot - startrot + 1).toNat
      ∧ acc.vibirs.length = acc.vibfreqs.length
      ∧ acc.vibdisps.length = acc.vibfreqs.length
      ∧ acc.vibramans = none := by
  obtain ⟨m, rfl⟩ : ∃ m, natom = m + 1 := ⟨natom - 1, by omega⟩
  have hpref : pyFind (vibModesLine mTok nTok) "MODES".data = 0 :=
    pyFind_of_isPrefixOf _ _ (by
      rw [List.isPrefixOf_iff_prefix]
      exact ⟨joinToks [mTok, "TO".data, nTok, "ARE".data, "TAKEN".data, "AS".data,
        "ROTATIONS".data, "AND".data, "TRANSLATIONS.".data], rfl⟩)
  have htoks : ∀ t ∈ [mTok, "TO".data, nTok, "ARE".data, "TAKEN".data, "AS".data,
      "ROTATIONS".data, "AND".data, "TRANSLATIONS.".data], goodTok t := by
    intro t ht
    simp only [List.mem_cons, List.not_mem_nil, or_false] at ht
    rcases ht with rfl | rfl | rfl | rfl | rfl | rfl | rfl | rfl | rfl
    · exact hmg
    · decide
    · exact hng
    · decide
    · decide
    · decide
    · decide
    · decide
    · decide
  have hsplit : pySplit (vibModesLine mTok nTok)
      = ["MODES".data, mTok, "TO".data, nTok, "ARE".data, "TAKEN".data, "AS".data,
         "ROTATIONS".data, "AND".data, "TRANSLATIONS.".data] := by
    rw [show vibModesLine mTok nTok = "MODES".data ++ joinToks [mTok, "TO".data, nTok,
        "ARE".data, "TAKEN".data, "AS".data, "ROTATIONS".data, "AND".data,
        "TRANSLATIONS.".data] from rfl]
    rw [pySplit_label_join _ _ (by decide) htoks]
  have hget1 : (pySplit (vibModesLine mTok nTok)).get? 1 = some mTok := by
    rw [hsplit]; rfl
  have hget3 : (pySplit (vibModesLine mTok nTok)).get? 3 = some nTok := by
    rw [hsplit]; rfl
  have hscan : ∀ r : Lines, vibModesScan (vibModesLine mTok nTok :: r) false
      = .ok ((vibModesLine mTok nTok, false), r) := by
    intro r
    simp [vibModesScan, hw, hpref]
  have hskip : ∀ r : Lines, skipUntilEq []
      ("FREQUENCIES IN CM**-1, IR INTENSITIES IN DEBYE**2/AMU-ANGSTROM**2".data
        :: [] :: r) = .ok r := fun r => rfl
  have hrun := vibBlockLoop_run m blocks hb ⟨[], [], none, []⟩ none
  have hlenF : (vibPre blocks).length = vibTotal blocks :=
    flatten_filterMap_length blocks hb
  have heF : endrot ≤ ((vibPre blocks).length : Int) := by rw [hlenF]; exact he
  refine ⟨⟨(vibPre blocks).take (startrot - 1).toNat
            ++ (vibPre blocks).drop endrot.toNat,
          (List.replicate (vibTotal blocks)
              (convertor 1 "Debye^2/amu-Angstrom^2" "km/mol")).take (startrot - 1).toNat
            ++ (List.replicate (vibTotal blocks)
              (convertor 1 "Debye^2/amu-Angstrom^2" "km/mol")).drop endrot.toNat,
          none,
          (List.replicate (vibTotal blocks)
              (List.replicate (m + 1) [(1 : ℚ), 1, 1])).take (startrot - 1).toNat
            ++ (List.replicate (vibTotal blocks)
              (List.replicate (m + 1) [(1 : ℚ), 1, 1])).drop endrot.toNat⟩,
        [], ?_, rfl, ?_, ?_, ?_, rfl⟩
  · rw [show mkVibInput mTok nTok (m + 1) blocks
        = vibModesLine mTok nTok :: [] ::
          "FREQUENCIES IN CM**-1, IR INTENSITIES IN DEBYE**2/AMU-ANGSTROM**2".data
          :: [] ::
          ((blocks.map (fun b => vibModeRow :: vibBlockLines (m + 1) b)).flatten
            ++ [vibTermLine]) from rfl]
    rw [vibStream_eq]
    simp only [vibSection, hscan, hget1, hm, hget3, hn, hskip, Bool.false_eq_true,
      reduceIte, hrun, foldl_extendAcc (m + 1) blocks,
      pyTake_nonneg _ (startrot - 1) (by omega), pyDrop_nonneg _ endrot (by omega),
      List.nil_append]
    rfl
  · rw [slice_length _ _ _ h1 hse heF, hlenF]
  · rw [slice_length _ _ _ h1 hse (by simpa using he),
      slice_length _ _ _ h1 hse heF, List.length_replicate, hlenF]
  · rw [slice_length _ _ _ h1 hse (by simpa using he),
      slice_length _ _ _ h1 hse heF, List.length_replicate, hlenF]

end Gamess

namespace Gamess

theorem vib_lengths_after_exclusion_witness :
    ∃ acc rest,
      vibSection 2 3 (mkVibInput "1".data "6".data 2
          [List.replicate 5 "70.5".data, List.replicate 3 "80.5".data])
        = .ok (acc, rest)
      ∧ acc.vibfreqs.length = 2 ∧ acc.vibirs.length = 2 ∧ acc.vibdisps.length = 2
      ∧ acc.vibramans = none := by
  obtain ⟨acc, rest, hsec, hfr, hlen, hir, hdi, hram⟩ :=
    vib_lengths_after_exclusion "1".data "6".data 2
      [List.replicate 5 "70.5".data, List.replicate 3 "80.5".data] 1 6
      (by decide) (by decide) (by decide) (by decide) (by decide) (by decide)
      (by decide) (by decide) (by decide) (by decide)
  refine ⟨acc, rest, hsec, ?_, ?_, ?_, hram⟩
  · rw [hlen]; decide
  · rw [hir, hlen]; decide
  · rw [hdi, hlen]; decide

end Gamess
